import Mathlib

/-!
Verification of the feature-encoding pipeline of
`src/model/out_simple_transformer/classification_utils.py`.

The Python source is shallowly embedded: each Python function becomes an
executable Lean definition with the same name (modulo a leading underscore),
Python integers become `Int`, Python lists become `List`, and every
Python-level failure (IndexError, AssertionError, TypeError, ValueError,
KeyError, ZeroDivisionError, NameError) is modelled by returning
`Except PyErr _`.  The external tokenizer is a black-box capability
(a pair of functions), exactly as the module treats it.
-/

/-- Python exceptions that the embedded code can raise.  Distinct failure
sites get distinct constructors so that theorems can tell them apart. -/
inductive PyErr where
  /-- IndexError, e.g. `list.pop()` on an empty list or `line[i]` out of range. -/
  | indexError
  /-- AssertionError from the post-padding length checks. -/
  | assertionError
  /-- TypeError for a call that omits a required positional argument
  (the `feature_id` argument of `InputFeatures.__init__`). -/
  | typeErrorMissingFeatureId
  /-- ValueError from unpacking the driver's 16-component task tuple into the
  13 names of `convert_example_to_feature_sliding_window`. -/
  | valueErrorTooManyValues
  /-- ValueError raised for sequence-pair input in sliding-window mode. -/
  | valueErrorSeqPairSlidingWindow
  /-- ValueError from `range(0, n, 0)` (zero step). -/
  | valueErrorRangeStepZero
  /-- ValueError from `int(...)` applied to a non-numeric string. -/
  | valueErrorIntParse
  /-- KeyError from a missing key in `args.labels_map`. -/
  | keyError
  /-- ZeroDivisionError from the chunk-size computation. -/
  | zeroDivisionError
  /-- TypeError from indexing a list with `None`. -/
  | typeErrorNoneIndex
  /-- NameError from `_get_n_lines` on an empty file. -/
  | nameError
  deriving DecidableEq, Repr

deriving instance DecidableEq for Except

/-- Python truthiness of an optional string (`None` and `""` are falsy). -/
def pyTruthyStr : Option String → Bool
  | none => false
  | some s => s ≠ ""

/-- Python truthiness of an optional list (`None` and `[]` are falsy). -/
def pyTruthyList {α : Type _} : Option (List α) → Bool
  | none => false
  | some l => !l.isEmpty

/-- Python falsiness of an optional integer (`None` and `0` are falsy);
used by `LazyClassificationDataset.__getitem__` on the column indices. -/
def pyFalsyOptNat : Option Nat → Bool
  | none => true
  | some n => n = 0

/-- Python slice normalisation: clamp an index of `a[i:j]` into `[0, len]`,
counting from the end when negative. -/
def pySliceIdx (len : Nat) (i : Int) : Nat :=
  if i < 0 then ((len : Int) + i).toNat else min i.toNat len

/-- Python slice `l[i:j]` (step 1), with full negative-index semantics. -/
def pySlice {α : Type _} (l : List α) (i j : Int) : List α :=
  let s := pySliceIdx l.length i
  let e := pySliceIdx l.length j
  (l.drop s).take (e - s)

/-- Python slice `l[:j]`. -/
def pySliceTo {α : Type _} (l : List α) (j : Int) : List α :=
  pySlice l 0 j

/-- Python `l[i]` for a nonnegative index: IndexError when out of range. -/
def pyListGet {α : Type _} (l : List α) (i : Nat) : Except PyErr α :=
  if h : i < l.length then .ok (l.get ⟨i, h⟩) else .error .indexError

/-- Source lines 309-324, `_truncate_seq_pair`: pop from the end of the
currently longer of the two lists (from `tokens_b` on ties) until the
combined length is at most `max_length`.  Popping an empty list (possible
only when `max_length < 0`) raises IndexError. -/
def truncate_seq_pair {α : Type _} (a b : List α) (max_length : Int) :
    Except PyErr (List α × List α) :=
  if (a.length + b.length : Int) ≤ max_length then .ok (a, b)
  else if h2 : b.length < a.length then truncate_seq_pair a.dropLast b max_length
  else if h3 : b.isEmpty then .error .indexError
  else truncate_seq_pair a b.dropLast max_length
  termination_by a.length + b.length
  decreasing_by
  · simp only [List.length_dropLast]
    omega
  · have hb : b ≠ [] := by simpa using h3
    have hbl : 0 < b.length := List.length_pos.mpr hb
    simp only [List.length_dropLast]
    omega

/-- Core correctness of `_truncate_seq_pair` for a nonnegative budget,
by strong induction on the combined length. -/
theorem truncate_seq_pair_ok {α : Type _} (a b : List α) (M : Int)
    (hM : 0 ≤ M) :
    ∃ a' b', truncate_seq_pair a b M = .ok (a', b') ∧
      (∃ ta, a' ++ ta = a) ∧ (∃ tb, b' ++ tb = b) ∧
      (a'.length + b'.length : Int) = min (a.length + b.length : Int) M := by
  suffices H : ∀ n (a b : List α), a.length + b.length = n →
      ∃ a' b', truncate_seq_pair a b M = .ok (a', b') ∧
        (∃ ta, a' ++ ta = a) ∧ (∃ tb, b' ++ tb = b) ∧
        (a'.length + b'.length : Int) = min (a.length + b.length : Int) M by
    exact H _ a b rfl
  intro n
  induction n using Nat.strong_induction_on with
  | _ n ih =>
    intro a b hn
    rw [truncate_seq_pair.eq_def]
    by_cases h1 : (a.length + b.length : Int) ≤ M
    · rw [if_pos h1]
      refine ⟨a, b, rfl, ⟨[], by simp⟩, ⟨[], by simp⟩, ?_⟩
      omega
    · rw [if_neg h1]
      by_cases h2 : b.length < a.length
      · rw [dif_pos h2]
        have ha : a ≠ [] := by
          intro h
          subst h
          simp at h2
        have hmeas : a.dropLast.length + b.length < n := by
          simp only [List.length_dropLast]
          omega
        obtain ⟨a', b', heq, ⟨ta, hta⟩, htb, hsum⟩ := ih _ hmeas a.dropLast b rfl
        refine ⟨a', b', heq, ⟨ta ++ [a.getLast ha], ?_⟩, htb, ?_⟩
        · rw [← List.append_assoc, hta, List.dropLast_append_getLast ha]
        · have hlen : a.dropLast.length = a.length - 1 := List.length_dropLast a
          have hap : 0 < a.length := List.length_pos.mpr ha
          rw [hsum]
          rw [hlen]
          push_cast
          omega
      · rw [dif_neg h2]
        have hb : b ≠ [] := by
          intro h
          subst h
          simp only [List.length_nil, Nat.cast_zero, add_zero, not_lt,
            Nat.le_zero] at h1 h2
          omega
        rw [dif_neg (by simpa using hb : ¬ b.isEmpty = true)]
        have hmeas : a.length + b.dropLast.length < n := by
          have : 0 < b.length := List.length_pos.mpr hb
          simp only [List.length_dropLast]
          omega
        obtain ⟨a', b', heq, hta, ⟨tb, htb⟩, hsum⟩ := ih _ hmeas a b.dropLast rfl
        refine ⟨a', b', heq, hta, ⟨tb ++ [b.getLast hb], ?_⟩, ?_⟩
        · rw [← List.append_assoc, htb, List.dropLast_append_getLast hb]
        · have hlen : b.dropLast.length = b.length - 1 := List.length_dropLast b
          have hbp : 0 < b.length := List.length_pos.mpr hb
          rw [hsum]
          rw [hlen]
          push_cast
          omega

/-- C1: for every pair of lists and every integer budget M ≥ 0,
`_truncate_seq_pair` terminates normally (returns, raising no exception),
leaves both lists prefixes of their originals, ends with combined length
`min (len a + len b) M`, and at every state with combined length over
budget it pops `b` exactly when `len a ≤ len b` (so ties pop `b`) and pops
`a` exactly when `len b < len a` (so the strictly shorter list is never
popped while the other is longer). -/
theorem truncate_seq_pair_spec {α : Type _} (a b : List α) (M : Int)
    (hM : 0 ≤ M) :
    (∃ a' b', truncate_seq_pair a b M = .ok (a', b') ∧
      (∃ ta, a' ++ ta = a) ∧ (∃ tb, b' ++ tb = b) ∧
      (a'.length + b'.length : Int) = min (a.length + b.length : Int) M) ∧
    (M < (a.length + b.length : Int) → a.length ≤ b.length →
      truncate_seq_pair a b M = truncate_seq_pair a b.dropLast M) ∧
    (M < (a.length + b.length : Int) → b.length < a.length →
      truncate_seq_pair a b M = truncate_seq_pair a.dropLast b M) := by
  refine ⟨truncate_seq_pair_ok a b M hM, ?_, ?_⟩
  · intro hlt hle
    have hb : b ≠ [] := by
      intro h
      subst h
      simp only [List.length_nil, Nat.cast_zero, add_zero, Nat.le_zero] at hlt hle
      omega
    conv_lhs => rw [truncate_seq_pair.eq_def]
    rw [if_neg (by omega), dif_neg (by omega), dif_neg (by simpa using hb : ¬ b.isEmpty = true)]
  · intro hlt h2
    conv_lhs => rw [truncate_seq_pair.eq_def]
    rw [if_neg (by omega), dif_pos h2]

/-- Witness for C1 at a concrete input: lists of lengths 3 and 2 with
budget 3 truncate to lengths 2 and 1. -/
theorem truncate_seq_pair_spec_witness :
    (∃ a' b', truncate_seq_pair [1, 2, 3] [4, 5] (3 : Int) = .ok (a', b') ∧
      (∃ ta, a' ++ ta = [1, 2, 3]) ∧ (∃ tb, b' ++ tb = [4, 5]) ∧
      (a'.length + b'.length : Int) =
        min (([1, 2, 3] : List Nat).length + ([4, 5] : List Nat).length : Int) 3) ∧
    ((3 : Int) < (([1, 2, 3] : List Nat).length + ([4, 5] : List Nat).length : Int) →
      ([1, 2, 3] : List Nat).length ≤ ([4, 5] : List Nat).length →
      truncate_seq_pair [1, 2, 3] [4, 5] (3 : Int) =
        truncate_seq_pair [1, 2, 3] ([4, 5].dropLast) 3) ∧
    ((3 : Int) < (([1, 2, 3] : List Nat).length + ([4, 5] : List Nat).length : Int) →
      ([4, 5] : List Nat).length < ([1, 2, 3] : List Nat).length →
      truncate_seq_pair [1, 2, 3] [4, 5] (3 : Int) =
        truncate_seq_pair ([1, 2, 3].dropLast) [4, 5] 3) :=
  truncate_seq_pair_spec [1, 2, 3] [4, 5] 3 (by norm_num)

/-- External tokenizer capability: `tokenize` and per-token id conversion
(`convert_tokens_to_ids` maps it over a token list). -/
structure Tokenizer where
  tokenize : String → List String
  convertTokenToId : String → Int

/-- Model of `tokenizer.convert_tokens_to_ids`. -/
def convertTokensToIds (tok : Tokenizer) (l : List String) : List Int :=
  l.map tok.convertTokenToId

/-- Source lines 23-48, `InputExample`.  The `bboxes` field holds the list
built from the zipped `x0, y0, x1, y1` coordinates (`None` when absent). -/
structure InputExample where
  guid : Nat
  text_a : String
  text_b : Option String
  label : Option String
  features : Option Nat
  bboxes : Option (List (List Int))
  deriving DecidableEq, Repr

/-- Source lines 51-61, `InputFeatures`.  The Python object carries a
`bboxes` attribute only when a truthy `bboxes` argument was passed; an
absent attribute is modelled as `none`. -/
structure InputFeatures where
  input_ids : List Int
  input_mask : List Int
  segment_ids : List Int
  label_id : Option String
  feature_id : Option Nat
  bboxes : Option (List (List Int))
  deriving DecidableEq, Repr

/-- A Python keyword argument that a call site may omit. -/
inductive PyArg (α : Type _) where
  | omitted
  | given (v : α)

/-- Source lines 54-61, the `InputFeatures.__init__` call protocol:
`feature_id` has no default, so a call omitting it raises TypeError;
`bboxes` defaults to `None` and is stored only when truthy. -/
def mkInputFeatures (ids mask segs : List Int) (label : Option String)
    (fid : PyArg (Option Nat)) (bxs : PyArg (List (List Int))) :
    Except PyErr InputFeatures :=
  match fid with
  | .omitted => .error .typeErrorMissingFeatureId
  | .given f =>
    .ok { input_ids := ids, input_mask := mask, segment_ids := segs,
          label_id := label, feature_id := f,
          bboxes := match bxs with
            | .omitted => none
            | .given l => if l.isEmpty then none else some l }

/-- Source lines 249-269: the 16-component task tuple built by
`convert_examples_to_features` for each example.  The tokenizer component
(a function bundle) is passed to the encoders as a separate argument. -/
structure ExampleRow where
  ex : InputExample
  max_seq_length : Int
  output_mode : String
  cls_token_at_end : Bool
  cls_token : String
  sep_token : String
  cls_token_segment_id : Int
  pad_on_left : Bool
  pad_token_segment_id : Int
  sep_token_extra : Bool
  multi_label : Bool
  stride : Int
  pad_token : Int
  add_prefix_space : Bool
  pad_to_max_length : Bool
  deriving Repr

/-- Source line 101 (`cls_token_box`). -/
def cls_token_box : List Int := [0, 0, 0, 0]

/-- Source line 102 (`sep_token_box`). -/
def sep_token_box : List Int := [1000, 1000, 1000, 1000]

/-- Source line 103 (`pad_token_box`). -/
def pad_token_box : List Int := [0, 0, 0, 0]

/-- Helper for `pySplit`: scan the character list left to right, splitting
at each non-overlapping occurrence of the (nonempty) separator.  The fuel
is the length of the input, which bounds the number of steps; the fuel-zero
branch is unreachable. -/
def pySplitGo (sep : List Char) : Nat → List Char → List Char → List (List Char)
  | _, [], acc => [acc.reverse]
  | 0, cs, acc => [acc.reverse ++ cs]
  | fuel + 1, c :: rest, acc =>
    if sep.isPrefixOf (c :: rest) then
      acc.reverse :: pySplitGo sep fuel (List.drop (sep.length - 1) rest) []
    else
      pySplitGo sep fuel rest (c :: acc)

/-- Python `str.split(sep)` for a nonempty separator: split at every
non-overlapping occurrence of `sep`, keeping empty fields. -/
def pySplit (s sep : String) : List String :=
  (pySplitGo sep.data s.data.length s.data []).map String.mk

/-- Python `str.split()` (whitespace split dropping empty fields),
modelled for space-separated text. -/
def pySplitWs (s : String) : List String :=
  (pySplit s " ").filter (fun w => w ≠ "")

/-- Source lines 95-99: word-by-word tokenization of a boxed example, each
sub-token inheriting its parent word's box. -/
def boxedTokenize (tok : Tokenizer) :
    List (String × List Int) → List String × List (List Int)
  | [] => ([], [])
  | (w, box) :: rest =>
    let wt := tok.tokenize w
    let (ts, bs) := boxedTokenize tok rest
    (wt ++ ts, List.replicate wt.length box ++ bs)

/-- Source lines 93-109: `tokens_a` and the parallel box list (empty when
the example carries no truthy boxes). -/
def tokensAndBoxes (tok : Tokenizer) (row : ExampleRow) :
    List String × List (List Int) :=
  if pyTruthyList row.ex.bboxes then
    boxedTokenize tok ((pySplitWs row.ex.text_a).zip (row.ex.bboxes.getD []))
  else
    (tok.tokenize row.ex.text_a, [])

/-- Number of special tokens reserved by `convert_example_to_feature`
(source lines 120 and 124). -/
def specialTokensCount (row : ExampleRow) : Int :=
  if pyTruthyStr row.ex.text_b then (if row.sep_token_extra then 4 else 3)
  else (if row.sep_token_extra then 3 else 2)

/-- Source lines 111-128: tokenize `text_b` and truncate the pair, or
hard-truncate `tokens_a` (and, for a boxed example, the box list) from the
end.  Note the box list is not touched on the `text_b` path, exactly as in
the source. -/
def truncStage (tok : Tokenizer) (row : ExampleRow) (ta : List String)
    (bb : List (List Int)) :
    Except PyErr (List String × Option (List String) × List (List Int)) :=
  if pyTruthyStr row.ex.text_b then do
    let tb := tok.tokenize (row.ex.text_b.getD "")
    let pr ← truncate_seq_pair ta tb
      (row.max_seq_length - (if row.sep_token_extra then 4 else 3))
    .ok (pr.1, some pr.2, bb)
  else
    let cnt : Int := if row.sep_token_extra then 3 else 2
    if (ta.length : Int) > row.max_seq_length - cnt then
      .ok (pySliceTo ta (row.max_seq_length - cnt), none,
        if pyTruthyList row.ex.bboxes then pySliceTo bb (row.max_seq_length - cnt)
        else bb)
    else .ok (ta, none, bb)

/-- Source lines 148-170: assemble tokens, segment ids and boxes with the
separator and classification tokens.  The default segment ids of the
Python signature are used (`sequence_a_segment_id = 0`,
`sequence_b_segment_id = 1`); the driver never overrides them.  Note that
`cls_token_at_end` adds no box for the classification token, exactly as in
the source. -/
def assembleStage (row : ExampleRow) (ta : List String)
    (tb : Option (List String)) (bb : List (List Int)) :
    List String × List Int × List (List Int) :=
  let tokens := ta ++ [row.sep_token]
  let segs : List Int := List.replicate tokens.length 0
  let bb1 := if bb.isEmpty then bb else bb ++ [sep_token_box]
  let tokens2 :=
    match tb with
    | some l =>
      if l.isEmpty then tokens
      else if row.sep_token_extra then tokens ++ [row.sep_token] ++ l ++ [row.sep_token]
      else tokens ++ l ++ [row.sep_token]
    | none => tokens
  let segs2 :=
    match tb with
    | some l =>
      if l.isEmpty then segs
      else if row.sep_token_extra then segs ++ [1] ++ List.replicate (l.length + 1) 1
      else segs ++ List.replicate (l.length + 1) 1
    | none => segs
  if row.cls_token_at_end then
    (tokens2 ++ [row.cls_token], segs2 ++ [row.cls_token_segment_id], bb1)
  else
    ([row.cls_token] ++ tokens2, [row.cls_token_segment_id] ++ segs2,
      if bb1.isEmpty then bb1 else cls_token_box :: bb1)

/-- Source lines 180-191: compute the padding length and pad on the
configured side (boxes are padded only on the right-padding path, exactly
as in the source). -/
def padApply (row : ExampleRow) (mask_padding_with_zero : Bool)
    (ids mask segs : List Int) (bb : List (List Int)) :
    List Int × List Int × List Int × List (List Int) :=
  if row.pad_on_left then
    (List.replicate (row.max_seq_length - (ids.length : Int)).toNat row.pad_token ++ ids,
     List.replicate (row.max_seq_length - (ids.length : Int)).toNat
       (if mask_padding_with_zero then 0 else 1) ++ mask,
     List.replicate (row.max_seq_length - (ids.length : Int)).toNat
       row.pad_token_segment_id ++ segs,
     bb)
  else
    (ids ++ List.replicate (row.max_seq_length - (ids.length : Int)).toNat row.pad_token,
     mask ++ List.replicate (row.max_seq_length - (ids.length : Int)).toNat
       (if mask_padding_with_zero then 0 else 1),
     segs ++ List.replicate (row.max_seq_length - (ids.length : Int)).toNat
       row.pad_token_segment_id,
     if bb.isEmpty then bb
     else bb ++ List.replicate (row.max_seq_length - (ids.length : Int)).toNat
       pad_token_box)

/-- Source lines 192-196: the four assert checks after padding; a failure
is an `assertionError` (the box check applies only to a truthy box list). -/
def padCheck (row : ExampleRow)
    (out : List Int × List Int × List Int × List (List Int)) :
    Except PyErr (List Int × List Int × List Int × List (List Int)) :=
  if (out.1.length : Int) = row.max_seq_length ∧
     (out.2.1.length : Int) = row.max_seq_length ∧
     (out.2.2.1.length : Int) = row.max_seq_length ∧
     (out.2.2.2.isEmpty = true ∨ (out.2.2.2.length : Int) = row.max_seq_length) then
    .ok out
  else .error .assertionError

/-- Source lines 178-196: zero-pad up to `max_seq_length` and run the
assert checks; without `pad_to_max_length` nothing is padded or checked. -/
def padStage (row : ExampleRow) (mask_padding_with_zero : Bool)
    (ids mask segs : List Int) (bb : List (List Int)) :
    Except PyErr (List Int × List Int × List Int × List (List Int)) :=
  if row.pad_to_max_length then
    padCheck row (padApply row mask_padding_with_zero ids mask segs bb)
  else .ok (ids, mask, segs, bb)

/-- Source lines 64-212, `convert_example_to_feature`: the single-example
encoder.  `mask_padding_with_zero` is the keyword parameter of the Python
signature (the driver always leaves it `True`). -/
def convert_example_to_feature (tok : Tokenizer) (row : ExampleRow)
    (mask_padding_with_zero : Bool) : Except PyErr InputFeatures := do
  let tb0 := tokensAndBoxes tok row
  let tr ← truncStage tok row tb0.1 tb0.2
  let asm := assembleStage row tr.1 tr.2.1 tr.2.2
  let ids := convertTokensToIds tok asm.1
  let mask : List Int :=
    List.replicate ids.length (if mask_padding_with_zero then 1 else 0)
  let pd ← padStage row mask_padding_with_zero ids mask asm.2.1 asm.2.2
  mkInputFeatures pd.1 pd.2.1 pd.2.2.1 row.ex.label (.given row.ex.features)
    (if pd.2.2.2.isEmpty then .omitted else .given pd.2.2.2)

/-- A normalised slice index never exceeds the list length. -/
theorem pySliceIdx_le (len : Nat) (i : Int) : pySliceIdx len i ≤ len := by
  simp only [pySliceIdx]
  split_ifs <;> omega

/-- Length of a Python prefix slice `l[:j]`. -/
theorem pySliceTo_length {α : Type _} (l : List α) (j : Int) :
    (pySliceTo l j).length = pySliceIdx l.length j := by
  have h := pySliceIdx_le l.length j
  have h0 : pySliceIdx l.length 0 = 0 := by simp [pySliceIdx]
  simp only [pySliceTo, pySlice, List.length_take, List.length_drop, h0]
  omega

/-- The box list built by word-by-word tokenization is parallel to the
token list. -/
theorem boxedTokenize_length (tok : Tokenizer) (l : List (String × List Int)) :
    (boxedTokenize tok l).2.length = (boxedTokenize tok l).1.length := by
  induction l with
  | nil => simp [boxedTokenize]
  | cons p rest ih =>
    obtain ⟨w, box⟩ := p
    rcases hrec : boxedTokenize tok rest with ⟨ts, bs⟩
    rw [hrec] at ih
    simp only [boxedTokenize, hrec, List.length_append, List.length_replicate]
    simpa using ih

/-- For a boxed example the initial box list is parallel to `tokens_a`. -/
theorem tokensAndBoxes_length (tok : Tokenizer) (row : ExampleRow)
    (h : pyTruthyList row.ex.bboxes = true) :
    (tokensAndBoxes tok row).2.length = (tokensAndBoxes tok row).1.length := by
  simp [tokensAndBoxes, h, boxedTokenize_length]

/-- Without truthy example boxes the initial box list is empty. -/
theorem tokensAndBoxes_unboxed (tok : Tokenizer) (row : ExampleRow)
    (h : pyTruthyList row.ex.bboxes = false) :
    (tokensAndBoxes tok row).2 = [] := by
  simp [tokensAndBoxes, h]

/-- Token-to-id conversion preserves length. -/
theorem convertTokensToIds_length (tok : Tokenizer) (l : List String) :
    (convertTokensToIds tok l).length = l.length := by
  simp [convertTokensToIds]

/-- Python slice of an empty list is empty. -/
theorem pySliceTo_nil {α : Type _} (j : Int) : (pySliceTo ([] : List α) j) = [] := by
  simp [pySliceTo, pySlice]

/-- Shape of the assembled token/segment/box triple: segment ids are
parallel to tokens; the token count adds the separator(s) and the
classification token; an empty box list stays empty, and a nonempty one
with the classification token at the front grows by exactly the separator
and classification boxes. -/
theorem assembleStage_spec (row : ExampleRow) (ta : List String)
    (tb : Option (List String)) (bb : List (List Int)) :
    (assembleStage row ta tb bb).2.1.length = (assembleStage row ta tb bb).1.length ∧
    (assembleStage row ta tb bb).1.length =
      ta.length + 2 + (match tb with
        | some l =>
          if l.isEmpty then 0
          else l.length + 1 + (if row.sep_token_extra then 1 else 0)
        | none => 0) ∧
    (bb = [] → (assembleStage row ta tb bb).2.2 = []) ∧
    (bb ≠ [] → row.cls_token_at_end = false →
      (assembleStage row ta tb bb).2.2.length = bb.length + 2 ∧
      (assembleStage row ta tb bb).2.2 ≠ []) := by
  unfold assembleStage
  rcases tb with _ | l
  · by_cases hcls : row.cls_token_at_end = true <;>
      by_cases hbb : bb = [] <;>
      simp_all [List.length_append, List.length_replicate] <;> omega
  · by_cases hl : l.isEmpty <;>
      by_cases hx : row.sep_token_extra = true <;>
      by_cases hcls : row.cls_token_at_end = true <;>
      by_cases hbb : bb = [] <;>
      simp_all [List.length_append, List.length_replicate] <;> omega

/-- When the pre-padding sequences fit in the budget, are mutually
parallel, and the box list is absent or parallel with right padding, the
padding stage succeeds and every produced sequence has length exactly
`max_seq_length`. -/
theorem padStage_ok (row : ExampleRow) (mpz : Bool) (ids mask segs : List Int)
    (bb : List (List Int))
    (hp : row.pad_to_max_length = true)
    (hle : (ids.length : Int) ≤ row.max_seq_length)
    (hm : mask.length = ids.length) (hs : segs.length = ids.length)
    (hb : bb = [] ∨ (bb.length = ids.length ∧ row.pad_on_left = false)) :
    ∃ I M S B, padStage row mpz ids mask segs bb = .ok (I, M, S, B) ∧
      (I.length : Int) = row.max_seq_length ∧
      (M.length : Int) = row.max_seq_length ∧
      (S.length : Int) = row.max_seq_length ∧
      ((bb = [] ∧ B = []) ∨
        (bb ≠ [] ∧ B ≠ [] ∧ (B.length : Int) = row.max_seq_length)) := by
  unfold padStage padApply padCheck
  rw [if_pos hp]
  by_cases hL : row.pad_on_left = true
  · have hbnil : bb = [] := by
      rcases hb with h | ⟨_, h2⟩
      · exact h
      · rw [hL] at h2
        cases h2
    subst hbnil
    rw [if_pos hL]
    have hcond : ((List.replicate (row.max_seq_length - (ids.length : Int)).toNat
        row.pad_token ++ ids).length : Int) = row.max_seq_length ∧
        ((List.replicate (row.max_seq_length - (ids.length : Int)).toNat
          (if mpz then 0 else 1) ++ mask).length : Int) = row.max_seq_length ∧
        ((List.replicate (row.max_seq_length - (ids.length : Int)).toNat
          row.pad_token_segment_id ++ segs).length : Int) = row.max_seq_length ∧
        (([] : List (List Int)).isEmpty = true ∨
          (([] : List (List Int)).length : Int) = row.max_seq_length) := by
      refine ⟨?_, ?_, ?_, Or.inl rfl⟩ <;>
        simp [List.length_append, List.length_replicate, hm, hs] <;> omega
    rw [if_pos hcond]
    refine ⟨_, _, _, _, rfl, hcond.1, hcond.2.1, hcond.2.2.1, Or.inl ⟨rfl, rfl⟩⟩
  · rw [if_neg hL]
    by_cases hbb : bb = []
    · subst hbb
      have hcond : ((ids ++ List.replicate (row.max_seq_length - (ids.length : Int)).toNat
          row.pad_token).length : Int) = row.max_seq_length ∧
          ((mask ++ List.replicate (row.max_seq_length - (ids.length : Int)).toNat
            (if mpz then 0 else 1)).length : Int) = row.max_seq_length ∧
          ((segs ++ List.replicate (row.max_seq_length - (ids.length : Int)).toNat
            row.pad_token_segment_id).length : Int) = row.max_seq_length ∧
          ((if ([] : List (List Int)).isEmpty then ([] : List (List Int))
            else [] ++ List.replicate (row.max_seq_length - (ids.length : Int)).toNat
              pad_token_box).isEmpty = true ∨
            (((if ([] : List (List Int)).isEmpty then ([] : List (List Int))
              else [] ++ List.replicate (row.max_seq_length - (ids.length : Int)).toNat
                pad_token_box).length : Int) = row.max_seq_length)) := by
        refine ⟨?_, ?_, ?_, Or.inl (by simp)⟩ <;>
          simp [List.length_append, List.length_replicate, hm, hs] <;> omega
      rw [if_pos hcond]
      exact ⟨_, _, _, _, rfl, hcond.1, hcond.2.1, hcond.2.2.1,
        Or.inl ⟨rfl, by simp⟩⟩
    · rcases hb with h | ⟨hblen, _⟩
      · exact absurd h hbb
      have hbne : bb.isEmpty = false := by
        simpa [List.isEmpty_iff] using hbb
      have hcond : ((ids ++ List.replicate (row.max_seq_length - (ids.length : Int)).toNat
          row.pad_token).length : Int) = row.max_seq_length ∧
          ((mask ++ List.replicate (row.max_seq_length - (ids.length : Int)).toNat
            (if mpz then 0 else 1)).length : Int) = row.max_seq_length ∧
          ((segs ++ List.replicate (row.max_seq_length - (ids.length : Int)).toNat
            row.pad_token_segment_id).length : Int) = row.max_seq_length ∧
          ((if bb.isEmpty then bb
            else bb ++ List.replicate (row.max_seq_length - (ids.length : Int)).toNat
              pad_token_box).isEmpty = true ∨
            (((if bb.isEmpty then bb
              else bb ++ List.replicate (row.max_seq_length - (ids.length : Int)).toNat
                pad_token_box).length : Int) = row.max_seq_length)) := by
        refine ⟨?_, ?_, ?_, Or.inr ?_⟩ <;>
          simp [List.length_append, List.length_replicate, hm, hs, hbne, hblen] <;>
          omega
      rw [if_pos hcond]
      refine ⟨_, _, _, _, rfl, hcond.1, hcond.2.1, hcond.2.2.1, Or.inr ⟨hbb, ?_, ?_⟩⟩
      · simp [hbne, hbb]
      · rcases hcond.2.2.2 with h | h
        · simp [hbne, hbb] at h
        · exact h

/-- Bind of a successful `Except` computation reduces to the continuation. -/
theorem exceptOkBind {e a b : Type _} (x : a) (f : a → Except e b) :
    (Except.ok x >>= f : Except e b) = f x := rfl

/-- Bind of a failed `Except` computation stays the failure. -/
theorem exceptErrBind {e a b : Type _} (err : e) (f : a → Except e b) :
    (Except.error err >>= f : Except e b) = .error err := rfl

/-- Finishing step shared by the supported configurations: once the
truncation stage has produced token lists that fit the budget (and a box
list that is absent or parallel, with right padding and a front
classification token), the encoder succeeds and all produced sequences
have length `max_seq_length`. -/
theorem convert_finish (tok : Tokenizer) (row : ExampleRow) (mpz : Bool)
    (ta1 : List String) (tb1 : Option (List String)) (bb1 : List (List Int))
    (hpad : row.pad_to_max_length = true)
    (htrunc : truncStage tok row (tokensAndBoxes tok row).1
      (tokensAndBoxes tok row).2 = .ok (ta1, tb1, bb1))
    (hlen : ((assembleStage row ta1 tb1 bb1).1.length : Int) ≤ row.max_seq_length)
    (hbb : bb1 = [] ∨ (bb1.length = ta1.length ∧ tb1 = none ∧
      row.cls_token_at_end = false ∧ row.pad_on_left = false)) :
    ∃ f, convert_example_to_feature tok row mpz = .ok f ∧
      (f.input_ids.length : Int) = row.max_seq_length ∧
      (f.input_mask.length : Int) = row.max_seq_length ∧
      (f.segment_ids.length : Int) = row.max_seq_length ∧
      (∀ bs, f.bboxes = some bs → (bs.length : Int) = row.max_seq_length) := by
  obtain ⟨hsegs, htoklen, hbbnil, hbbcons⟩ :=
    assembleStage_spec row ta1 tb1 bb1
  have hidlen : (convertTokensToIds tok (assembleStage row ta1 tb1 bb1).1).length =
      (assembleStage row ta1 tb1 bb1).1.length := convertTokensToIds_length _ _
  have hb : (assembleStage row ta1 tb1 bb1).2.2 = [] ∨
      ((assembleStage row ta1 tb1 bb1).2.2.length =
        (convertTokensToIds tok (assembleStage row ta1 tb1 bb1).1).length ∧
        row.pad_on_left = false) := by
    by_cases hnil : bb1 = []
    · exact Or.inl (hbbnil hnil)
    · rcases hbb with h | ⟨hblen, htb, hcls, hpl⟩
      · exact absurd h hnil
      · refine Or.inr ⟨?_, hpl⟩
        have := (hbbcons hnil hcls).1
        rw [this, hidlen, htoklen, hblen, htb]
        simp
  obtain ⟨I, M, S, B, hpd, hI, hM, hS, hB⟩ :=
    padStage_ok row mpz (convertTokensToIds tok (assembleStage row ta1 tb1 bb1).1)
      (List.replicate (convertTokensToIds tok (assembleStage row ta1 tb1 bb1).1).length
        (if mpz then 1 else 0))
      (assembleStage row ta1 tb1 bb1).2.1 (assembleStage row ta1 tb1 bb1).2.2
      hpad (by rw [hidlen]; exact hlen) (List.length_replicate _ _)
      (by rw [hsegs, hidlen]) hb
  rcases hB with ⟨_, hBnil⟩ | ⟨_, hBne, hBlen⟩
  · refine ⟨⟨I, M, S, row.ex.label, row.ex.features, none⟩, ?_, hI, hM, hS, ?_⟩
    · simp only [convert_example_to_feature, htrunc, exceptOkBind, hpd,
        mkInputFeatures, hBnil]
      simp
    · intro bs hbs
      simp at hbs
  · have hBe : B.isEmpty = false := by simpa [List.isEmpty_iff] using hBne
    refine ⟨⟨I, M, S, row.ex.label, row.ex.features, some B⟩, ?_, hI, hM, hS, ?_⟩
    · simp only [convert_example_to_feature, htrunc, exceptOkBind, hpd,
        mkInputFeatures]
      simp [hBne]
    · intro bs hbs
      simp at hbs
      rw [← hbs]
      exact hBlen

/-- C2 (amended): with padding enabled, for every example and every
combination of `pad_on_left`, `cls_token_at_end`, `sep_token_extra` and
presence of `text_b` — provided `max_seq_length` covers the reserved
special tokens, and provided that an example carrying a nonempty
token-aligned box list uses the supported box configuration (no `text_b`,
classification token at the front, right padding) — the encoder succeeds,
`input_ids`, `input_mask` and `segment_ids` have length exactly
`max_seq_length`, a produced box list has length exactly `max_seq_length`,
and the length checks pass. -/
theorem convert_example_lengths_amended (tok : Tokenizer) (row : ExampleRow)
    (mpz : Bool)
    (hpad : row.pad_to_max_length = true)
    (hmax : specialTokensCount row ≤ row.max_seq_length)
    (hbox : (tokensAndBoxes tok row).2 = [] ∨
      (pyTruthyStr row.ex.text_b = false ∧ row.cls_token_at_end = false ∧
        row.pad_on_left = false)) :
    ∃ f, convert_example_to_feature tok row mpz = .ok f ∧
      (f.input_ids.length : Int) = row.max_seq_length ∧
      (f.input_mask.length : Int) = row.max_seq_length ∧
      (f.segment_ids.length : Int) = row.max_seq_length ∧
      (∀ bs, f.bboxes = some bs → (bs.length : Int) = row.max_seq_length) := by
  by_cases htb : pyTruthyStr row.ex.text_b = true
  · have hbb0 : (tokensAndBoxes tok row).2 = [] := by
      rcases hbox with h | ⟨hf, _⟩
      · exact h
      · rw [htb] at hf
        cases hf
    have hbudget : (0 : Int) ≤ row.max_seq_length -
        (if row.sep_token_extra then 4 else 3) := by
      have h := hmax
      unfold specialTokensCount at h
      rw [if_pos htb] at h
      split_ifs at h ⊢ <;> omega
    obtain ⟨ta', tb', heq, -, -, hsum⟩ :=
      truncate_seq_pair_ok (tokensAndBoxes tok row).1
        (tok.tokenize (row.ex.text_b.getD "")) _ hbudget
    have htrunc : truncStage tok row (tokensAndBoxes tok row).1
        (tokensAndBoxes tok row).2 =
        .ok (ta', some tb', (tokensAndBoxes tok row).2) := by
      unfold truncStage
      rw [if_pos htb]
      simp only [heq, exceptOkBind]
    refine convert_finish tok row mpz ta' (some tb') _ hpad htrunc ?_ (Or.inl hbb0)
    obtain ⟨-, htoklen, -, -⟩ :=
      assembleStage_spec row ta' (some tb') (tokensAndBoxes tok row).2
    rw [htoklen]
    have hmin : (ta'.length + tb'.length : Int) ≤
        row.max_seq_length - (if row.sep_token_extra then 4 else 3) := by
      rw [hsum]
      exact min_le_right _ _
    by_cases hemp : tb'.isEmpty = true
    · have : tb'.length = 0 := by
        rw [List.isEmpty_iff] at hemp
        simp [hemp]
      simp only [hemp, if_true]
      split_ifs at hmin <;> push_cast <;> omega
    · have hemp' : tb'.isEmpty = false := by simpa using hemp
      simp only [hemp', if_false]
      split_ifs at hmin ⊢ <;> push_cast <;> omega
  · have htbf : pyTruthyStr row.ex.text_b = false := by simpa using htb
    have hcnt : (if row.sep_token_extra then (3 : Int) else 2) ≤
        row.max_seq_length := by
      have h := hmax
      unfold specialTokensCount at h
      rw [if_neg htb] at h
      exact h
    have hj0 : (0 : Int) ≤ row.max_seq_length -
        (if row.sep_token_extra then 3 else 2) := by
      split_ifs at hcnt ⊢ <;> omega
    have hfinish : ∀ (ta1 : List String) (bb1 : List (List Int)),
        truncStage tok row (tokensAndBoxes tok row).1 (tokensAndBoxes tok row).2 =
          .ok (ta1, none, bb1) →
        (ta1.length : Int) + 2 ≤ row.max_seq_length →
        (bb1 = [] ∨ (bb1.length = ta1.length ∧ row.cls_token_at_end = false ∧
          row.pad_on_left = false)) →
        ∃ f, convert_example_to_feature tok row mpz = .ok f ∧
          (f.input_ids.length : Int) = row.max_seq_length ∧
          (f.input_mask.length : Int) = row.max_seq_length ∧
          (f.segment_ids.length : Int) = row.max_seq_length ∧
          (∀ bs, f.bboxes = some bs → (bs.length : Int) = row.max_seq_length) := by
      intro ta1 bb1 htr hl hbbs
      refine convert_finish tok row mpz ta1 none bb1 hpad htr ?_ ?_
      · obtain ⟨-, htoklen, -, -⟩ := assembleStage_spec row ta1 none bb1
        rw [htoklen]
        push_cast
        omega
      · rcases hbbs with h | ⟨h1, h2, h3⟩
        · exact Or.inl h
        · exact Or.inr ⟨h1, rfl, h2, h3⟩
    have hboxside : ∀ (ta1 : List String) (bb1 : List (List Int)),
        bb1 ≠ [] →
        ((tokensAndBoxes tok row).2 = [] → bb1 = []) →
        bb1.length = ta1.length →
        (bb1 = [] ∨ (bb1.length = ta1.length ∧ row.cls_token_at_end = false ∧
          row.pad_on_left = false)) := by
      intro ta1 bb1 hne himp hlen
      rcases hbox with h | ⟨-, hcls, hpl⟩
      · exact absurd (himp h) hne
      · exact Or.inr ⟨hlen, hcls, hpl⟩
    by_cases hsl : ((tokensAndBoxes tok row).1.length : Int) >
        row.max_seq_length - (if row.sep_token_extra then 3 else 2)
    · have htrunc : truncStage tok row (tokensAndBoxes tok row).1
          (tokensAndBoxes tok row).2 =
          .ok (pySliceTo (tokensAndBoxes tok row).1
            (row.max_seq_length - (if row.sep_token_extra then 3 else 2)), none,
            if pyTruthyList row.ex.bboxes then
              pySliceTo (tokensAndBoxes tok row).2
                (row.max_seq_length - (if row.sep_token_extra then 3 else 2))
            else (tokensAndBoxes tok row).2) := by
        unfold truncStage
        rw [if_neg (by rw [htbf]; exact Bool.false_ne_true)]
        simp only []
        rw [if_pos hsl]
      have hta1 : ((pySliceTo (tokensAndBoxes tok row).1
          (row.max_seq_length - (if row.sep_token_extra then 3 else 2))).length : Int) =
          row.max_seq_length - (if row.sep_token_extra then 3 else 2) := by
        rw [pySliceTo_length]
        unfold pySliceIdx
        rw [if_neg (by omega)]
        omega
      refine hfinish _ _ htrunc ?_ ?_
      · rw [hta1]
        split_ifs <;> omega
      · by_cases hbe : (if pyTruthyList row.ex.bboxes then
            pySliceTo (tokensAndBoxes tok row).2
              (row.max_seq_length - (if row.sep_token_extra then 3 else 2))
            else (tokensAndBoxes tok row).2) = []
        · exact Or.inl hbe
        · refine hboxside _ _ hbe ?_ ?_
          · intro h0
            rw [h0, pySliceTo_nil]
            split_ifs <;> rfl
          · have htr : pyTruthyList row.ex.bboxes = true := by
              by_contra hc
              have hc' : pyTruthyList row.ex.bboxes = false := by
                simpa using hc
              rw [if_neg (by rw [hc']; exact Bool.false_ne_true),
                tokensAndBoxes_unboxed tok row hc'] at hbe
              exact hbe rfl
            rw [if_pos htr, pySliceTo_length, pySliceTo_length,
              tokensAndBoxes_length tok row htr]
    · have htrunc : truncStage tok row (tokensAndBoxes tok row).1
          (tokensAndBoxes tok row).2 =
          .ok ((tokensAndBoxes tok row).1, none, (tokensAndBoxes tok row).2) := by
        unfold truncStage
        rw [if_neg (by rw [htbf]; exact Bool.false_ne_true)]
        simp only []
        rw [if_neg hsl]
      refine hfinish _ _ htrunc ?_ ?_
      · push_cast at hsl ⊢
        split_ifs at hsl hcnt <;> omega
      · by_cases hbe : (tokensAndBoxes tok row).2 = []
        · exact Or.inl hbe
        · refine hboxside _ _ hbe (fun h => h) ?_
          have htr : pyTruthyList row.ex.bboxes = true := by
            by_contra hc
            exact hbe (tokensAndBoxes_unboxed tok row (by simpa using hc))
          exact tokensAndBoxes_length tok row htr


/-- Reduce a conditional over the trivially true Bool test. -/
theorem ifTrueReduce {α : Type _} (a b : α) :
    (if (true = true) then a else b) = a := if_pos rfl

/-- The padding checks succeed when every produced sequence has the
configured length (the box check also passes for an absent box list). -/
theorem padCheck_eq_ok (row : ExampleRow)
    (out : List Int × List Int × List Int × List (List Int))
    (h1 : (out.1.length : Int) = row.max_seq_length)
    (h2 : (out.2.1.length : Int) = row.max_seq_length)
    (h3 : (out.2.2.1.length : Int) = row.max_seq_length)
    (h4 : out.2.2.2.isEmpty = true ∨ (out.2.2.2.length : Int) = row.max_seq_length) :
    padCheck row out = .ok out := by
  unfold padCheck
  rw [if_pos ⟨h1, h2, h3, h4⟩]

/-- C6: for a single-sequence example without boxes whose tokenization
fits in `max_seq_length - 2`, with `sep_token_extra = False`,
`mask_padding_with_zero = True` and `pad_to_max_length = True`, the encoder
returns sequences of length exactly `max_seq_length` and the attention
mask is `len(tokens)+2` ones followed by zeros (zeros first when padding
on the left). -/
theorem single_seq_mask_spec (tok : Tokenizer) (row : ExampleRow)
    (htb : pyTruthyStr row.ex.text_b = false)
    (hbx : pyTruthyList row.ex.bboxes = false)
    (hx : row.sep_token_extra = false)
    (hpad : row.pad_to_max_length = true)
    (hL : ((tok.tokenize row.ex.text_a).length : Int) ≤ row.max_seq_length - 2) :
    ∃ f, convert_example_to_feature tok row true = .ok f ∧
      (f.input_ids.length : Int) = row.max_seq_length ∧
      (f.input_mask.length : Int) = row.max_seq_length ∧
      (f.segment_ids.length : Int) = row.max_seq_length ∧
      f.input_mask =
        (if row.pad_on_left then
          List.replicate (row.max_seq_length -
            ((((tok.tokenize row.ex.text_a).length + 2 : Nat)) : Int)).toNat 0 ++
            List.replicate ((tok.tokenize row.ex.text_a).length + 2) 1
        else
          List.replicate ((tok.tokenize row.ex.text_a).length + 2) 1 ++
            List.replicate (row.max_seq_length -
              ((((tok.tokenize row.ex.text_a).length + 2 : Nat)) : Int)).toNat 0) := by
  have hta1 : (tokensAndBoxes tok row).1 = tok.tokenize row.ex.text_a := by
    unfold tokensAndBoxes
    rw [if_neg (by rw [hbx]; exact Bool.false_ne_true)]
  have hta2 : (tokensAndBoxes tok row).2 = [] := tokensAndBoxes_unboxed tok row hbx
  have htrunc : truncStage tok row (tokensAndBoxes tok row).1
      (tokensAndBoxes tok row).2 =
      .ok ((tokensAndBoxes tok row).1, none, (tokensAndBoxes tok row).2) := by
    unfold truncStage
    rw [if_neg (by rw [htb]; exact Bool.false_ne_true)]
    simp only []
    rw [if_neg (by rw [hta1, hx, if_neg Bool.false_ne_true]; omega)]
  obtain ⟨hsegs0, htoklen0, hbnil0, -⟩ := assembleStage_spec row
    (tokensAndBoxes tok row).1 none (tokensAndBoxes tok row).2
  have hbbA : (assembleStage row (tokensAndBoxes tok row).1 none
      (tokensAndBoxes tok row).2).2.2 = [] := hbnil0 hta2
  have hidlen : (convertTokensToIds tok (assembleStage row (tokensAndBoxes tok row).1
      none (tokensAndBoxes tok row).2).1).length =
      (tok.tokenize row.ex.text_a).length + 2 := by
    rw [convertTokensToIds_length, htoklen0, hta1]
    simp
  set ids := convertTokensToIds tok (assembleStage row (tokensAndBoxes tok row).1
    none (tokensAndBoxes tok row).2).1 with hids
  set segs := (assembleStage row (tokensAndBoxes tok row).1 none
    (tokensAndBoxes tok row).2).2.1 with hsegs
  have hsegslen : segs.length = (tok.tokenize row.ex.text_a).length + 2 := by
    rw [hsegs, hsegs0, htoklen0, hta1]
    simp
  have hn : (row.max_seq_length - (ids.length : Int)).toNat =
      (row.max_seq_length -
        ((((tok.tokenize row.ex.text_a).length + 2 : Nat)) : Int)).toNat := by
    rw [hidlen]
  by_cases hpl : row.pad_on_left = true
  · have hpd : padStage row true ids
        (List.replicate ids.length (1 : Int)) segs
        (assembleStage row (tokensAndBoxes tok row).1 none
          (tokensAndBoxes tok row).2).2.2 =
        .ok (List.replicate (row.max_seq_length - (ids.length : Int)).toNat
            row.pad_token ++ ids,
          List.replicate (row.max_seq_length - (ids.length : Int)).toNat (0 : Int) ++
            List.replicate ids.length (1 : Int),
          List.replicate (row.max_seq_length - (ids.length : Int)).toNat
            row.pad_token_segment_id ++ segs, []) := by
      rw [hbbA]
      unfold padStage padApply
      rw [if_pos hpad, if_pos hpl]
      simp only [ifTrueReduce]
      refine padCheck_eq_ok row _ ?_ ?_ ?_ (Or.inl rfl) <;>
        simp only [List.length_append, List.length_replicate, hidlen, hsegslen] <;>
        push_cast <;> omega
    refine ⟨⟨List.replicate (row.max_seq_length - (ids.length : Int)).toNat
        row.pad_token ++ ids,
      List.replicate (row.max_seq_length - (ids.length : Int)).toNat (0 : Int) ++
        List.replicate ids.length (1 : Int),
      List.replicate (row.max_seq_length - (ids.length : Int)).toNat
        row.pad_token_segment_id ++ segs,
      row.ex.label, row.ex.features, none⟩, ?_, ?_, ?_, ?_, ?_⟩
    · simp only [convert_example_to_feature, htrunc, exceptOkBind, ifTrueReduce,
        eq_self_iff_true, if_true, List.isEmpty_nil,
        ← hids, ← hsegs, hpd, mkInputFeatures]
    · simp only [List.length_append, List.length_replicate, hidlen]
      push_cast
      omega
    · simp only [List.length_append, List.length_replicate, hidlen]
      push_cast
      omega
    · simp only [List.length_append, List.length_replicate, hsegslen, hidlen]
      push_cast
      omega
    · rw [if_pos hpl, hn, hidlen]
  · have hpl' : ¬ row.pad_on_left = true := hpl
    have hpd : padStage row true ids
        (List.replicate ids.length (1 : Int)) segs
        (assembleStage row (tokensAndBoxes tok row).1 none
          (tokensAndBoxes tok row).2).2.2 =
        .ok (ids ++ List.replicate (row.max_seq_length - (ids.length : Int)).toNat
            row.pad_token,
          List.replicate ids.length (1 : Int) ++
            List.replicate (row.max_seq_length - (ids.length : Int)).toNat (0 : Int),
          segs ++ List.replicate (row.max_seq_length - (ids.length : Int)).toNat
            row.pad_token_segment_id, []) := by
      rw [hbbA]
      unfold padStage padApply
      rw [if_pos hpad, if_neg hpl']
      simp only [List.isEmpty_nil, ifTrueReduce]
      refine padCheck_eq_ok row _ ?_ ?_ ?_ (Or.inl rfl) <;>
        simp only [List.length_append, List.length_replicate, hidlen, hsegslen] <;>
        push_cast <;> omega
    refine ⟨⟨ids ++ List.replicate (row.max_seq_length - (ids.length : Int)).toNat
        row.pad_token,
      List.replicate ids.length (1 : Int) ++
        List.replicate (row.max_seq_length - (ids.length : Int)).toNat (0 : Int),
      segs ++ List.replicate (row.max_seq_length - (ids.length : Int)).toNat
        row.pad_token_segment_id,
      row.ex.label, row.ex.features, none⟩, ?_, ?_, ?_, ?_, ?_⟩
    · simp only [convert_example_to_feature, htrunc, exceptOkBind, ifTrueReduce,
        eq_self_iff_true, if_true, List.isEmpty_nil,
        ← hids, ← hsegs, hpd, mkInputFeatures]
    · simp only [List.length_append, List.length_replicate, hidlen]
      push_cast
      omega
    · simp only [List.length_append, List.length_replicate, hidlen]
      push_cast
      omega
    · simp only [List.length_append, List.length_replicate, hsegslen, hidlen]
      push_cast
      omega
    · rw [if_neg hpl', hn, hidlen]

/-- A concrete deterministic tokenizer for witnesses: whitespace word
tokenization with word length as token id. -/
def simpleTokenizer : Tokenizer :=
  ⟨fun s => pySplitWs s, fun w => (w.length : Int)⟩

/-- A boxed two-word example. -/
def exBox : InputExample := ⟨0, "a b", none, some "1", none, some [[0, 0, 1, 1], [1, 1, 2, 2]]⟩

/-- Boxed example with the classification token at the end. -/
def cexRowClsEnd : ExampleRow :=
  ⟨exBox, 8, "classification", true, "[CLS]", "[SEP]", 1, false, 0, false, false,
    0, 0, false, true⟩

/-- Boxed example with left padding. -/
def cexRowPadLeft : ExampleRow :=
  ⟨exBox, 8, "classification", false, "[CLS]", "[SEP]", 1, true, 0, false, false,
    0, 0, false, true⟩

/-- Boxed example with a `text_b`. -/
def cexRowPairBox : ExampleRow :=
  ⟨⟨0, "a b", some "c", some "1", none, some [[0, 0, 1, 1], [1, 1, 2, 2]]⟩, 10,
    "classification", false, "[CLS]", "[SEP]", 1, false, 0, false, false,
    0, 0, false, true⟩

/-- Unboxed example whose `max_seq_length` is below the reserved special
token count. -/
def cexRowTinyMax : ExampleRow :=
  ⟨⟨0, "a b c", none, some "1", none, none⟩, 1, "classification",
    false, "[CLS]", "[SEP]", 1, false, 0, false, false, 0, 0, false, true⟩

/-- C2 counterexample: the length checks of `convert_example_to_feature` do
fail (AssertionError) with padding enabled, for each of: a boxed example
with `cls_token_at_end`, a boxed example with `pad_on_left`, a boxed
example with a `text_b`, and an unboxed example whose `max_seq_length` is
smaller than the reserved special-token count — refuting the claim that
they never fail for every combination. -/
theorem convert_example_lengths_cex :
    convert_example_to_feature simpleTokenizer cexRowClsEnd true =
      .error .assertionError ∧
    convert_example_to_feature simpleTokenizer cexRowPadLeft true =
      .error .assertionError ∧
    convert_example_to_feature simpleTokenizer cexRowPairBox true =
      .error .assertionError ∧
    convert_example_to_feature simpleTokenizer cexRowTinyMax true =
      .error .assertionError := by
  refine ⟨by decide, by decide, ?_, by decide⟩
  have htr : truncate_seq_pair (α := String) ["a", "b"] ["c"]
      ((10 : Int) - 3) = .ok (["a", "b"], ["c"]) := by
    rw [truncate_seq_pair.eq_def]
    norm_num
  have h2 : truncStage simpleTokenizer cexRowPairBox ["a", "b"]
      [[0, 0, 1, 1], [1, 1, 2, 2]] =
      .ok (["a", "b"], some ["c"], [[0, 0, 1, 1], [1, 1, 2, 2]]) := by
    unfold truncStage
    rw [if_pos (by decide)]
    have htok : simpleTokenizer.tokenize (cexRowPairBox.ex.text_b.getD "") = ["c"] := by
      decide
    have hsp : cexRowPairBox.max_seq_length -
        (if cexRowPairBox.sep_token_extra then (4 : Int) else 3) = (10 : Int) - 3 := by
      decide
    rw [htok, hsp]
    simp only [htr, exceptOkBind]
  have h1 : tokensAndBoxes simpleTokenizer cexRowPairBox =
      (["a", "b"], [[0, 0, 1, 1], [1, 1, 2, 2]]) := by decide
  simp only [convert_example_to_feature, h1, h2, exceptOkBind]
  decide

/-- A boxed example row in the supported configuration (no `text_b`,
classification token at the front, right padding). -/
def wRowBoxGood : ExampleRow :=
  ⟨exBox, 8, "classification", false, "[CLS]", "[SEP]", 1, false, 0, false, false,
    0, 0, false, true⟩

/-- Witness for the amended C2 at a concrete boxed example in the
supported configuration. -/
theorem convert_example_lengths_amended_witness :
    ∃ f, convert_example_to_feature simpleTokenizer wRowBoxGood true = .ok f ∧
      (f.input_ids.length : Int) = wRowBoxGood.max_seq_length ∧
      (f.input_mask.length : Int) = wRowBoxGood.max_seq_length ∧
      (f.segment_ids.length : Int) = wRowBoxGood.max_seq_length ∧
      (∀ bs, f.bboxes = some bs → (bs.length : Int) = wRowBoxGood.max_seq_length) :=
  convert_example_lengths_amended simpleTokenizer wRowBoxGood true rfl (by decide)
    (Or.inr ⟨by decide, rfl, rfl⟩)

/-- An unboxed single-sequence example row. -/
def wRowSingle : ExampleRow :=
  ⟨⟨0, "the dog", none, some "0", none, none⟩, 8, "classification",
    false, "[CLS]", "[SEP]", 1, false, 0, false, false, 0, 0, false, true⟩

/-- Witness for C6 at a concrete two-word example with `max_seq_length = 8`. -/
theorem single_seq_mask_spec_witness :
    ∃ f, convert_example_to_feature simpleTokenizer wRowSingle true = .ok f ∧
      (f.input_ids.length : Int) = wRowSingle.max_seq_length ∧
      (f.input_mask.length : Int) = wRowSingle.max_seq_length ∧
      (f.segment_ids.length : Int) = wRowSingle.max_seq_length ∧
      f.input_mask =
        (if wRowSingle.pad_on_left then
          List.replicate (wRowSingle.max_seq_length -
            ((((simpleTokenizer.tokenize wRowSingle.ex.text_a).length + 2 : Nat)) : Int)).toNat 0 ++
            List.replicate ((simpleTokenizer.tokenize wRowSingle.ex.text_a).length + 2) 1
        else
          List.replicate ((simpleTokenizer.tokenize wRowSingle.ex.text_a).length + 2) 1 ++
            List.replicate (wRowSingle.max_seq_length -
              ((((simpleTokenizer.tokenize wRowSingle.ex.text_a).length + 2 : Nat)) : Int)).toNat 0) :=
  single_seq_mask_spec simpleTokenizer wRowSingle rfl rfl rfl rfl (by decide)

/-- Fuel-driven model of Python `range(0, n, s)` for a positive step,
collecting `i, i+s, i+2s, …` while below `n`.  The fuel (the remaining
distance to `n`) makes the recursion structural; when it runs out the
index is already at least `n`, so the empty result is the correct one. -/
def pyRangeGo (s : Nat) : Nat → Nat → Nat → List Nat
  | 0, _, _ => []
  | fuel + 1, n, i => if i < n then i :: pyRangeGo s fuel n (i + s) else []

/-- Python `range(0, n, s)` for a positive step `s`. -/
def pyRange (n s : Nat) : List Nat := pyRangeGo s n n 0

/-- Ceiling division on naturals. -/
def ceilDiv (a b : Nat) : Nat := (a + b - 1) / b

/-- One step of ceiling division: for positive `m` and `s`,
`ceil(m/s) = ceil((m-s)/s) + 1`. -/
theorem ceilDiv_step (m s : Nat) (hs : 1 ≤ s) (hm : 1 ≤ m) :
    ceilDiv m s = ceilDiv (m - s) s + 1 := by
  unfold ceilDiv
  rcases le_or_lt s m with h | h
  · have h1 : m - s + s - 1 = m - 1 := by omega
    have h2 : m + s - 1 = (m - 1) + s := by omega
    rw [h1, h2, Nat.add_div_right _ (by omega)]
  · have h1 : m - s = 0 := by omega
    have h2 : m + s - 1 = (m - 1) + s := by omega
    rw [h1, h2, Nat.add_div_right _ (by omega)]
    have h3 : (m - 1) / s = 0 := Nat.div_eq_of_lt (by omega)
    have h4 : (0 + s - 1) / s = 0 := Nat.div_eq_of_lt (by omega)
    rw [h3, h4]

/-- Closed form of the fuelled range: starting at `i` with enough fuel, it
lists `i + k*s` for `k < ceil((n-i)/s)`. -/
theorem pyRangeGo_eq (s : Nat) (hs : 1 ≤ s) :
    ∀ (fuel n i : Nat), n - i ≤ fuel →
      pyRangeGo s fuel n i =
        (List.range (ceilDiv (n - i) s)).map (fun k => i + k * s) := by
  intro fuel
  induction fuel with
  | zero =>
    intro n i h
    have h0 : n - i = 0 := by omega
    rw [pyRangeGo, h0]
    have : ceilDiv 0 s = 0 := by
      unfold ceilDiv
      exact Nat.div_eq_of_lt (by omega)
    rw [this]
    simp
  | succ fuel ih =>
    intro n i h
    rw [pyRangeGo]
    by_cases hin : i < n
    · rw [if_pos hin]
      have hrec := ih n (i + s) (by omega)
      rw [hrec]
      have hstep : ceilDiv (n - i) s = ceilDiv (n - i - s) s + 1 :=
        ceilDiv_step (n - i) s hs (by omega)
      have hsub : n - (i + s) = n - i - s := by omega
      rw [hsub, hstep, List.range_succ_eq_map]
      simp only [List.map_cons, List.map_map, Nat.zero_mul, Nat.add_zero]
      congr 1
      apply List.map_congr_left
      intro k hk
      simp [Function.comp]
      ring
    · rw [if_neg hin]
      have h0 : n - i = 0 := by omega
      rw [h0]
      have : ceilDiv 0 s = 0 := by
        unfold ceilDiv
        exact Nat.div_eq_of_lt (by omega)
      rw [this]
      simp

/-- Closed form of `pyRange`. -/
theorem pyRange_eq (n s : Nat) (hs : 1 ≤ s) :
    pyRange n s = (List.range (ceilDiv n s)).map (fun k => k * s) := by
  unfold pyRange
  rw [pyRangeGo_eq s hs n n 0 (by omega)]
  simp

/-- Source lines 336-350: the 13-component task tuple that
`convert_example_to_feature_sliding_window` unpacks.  Note the driver packs
16 components (`ExampleRow`); this structure is what the sliding-window
encoder expects. -/
structure SlidingRow where
  ex : InputExample
  max_seq_length : Int
  output_mode : String
  cls_token_at_end : Bool
  cls_token : String
  sep_token : String
  cls_token_segment_id : Int
  pad_on_left : Bool
  pad_token_segment_id : Int
  sep_token_extra : Bool
  multi_label : Bool
  stride : Int
  deriving Repr

/-- Source lines 352-353: a stride below 1 is scaled by `max_seq_length`
(`int(max_seq_length * stride)`). -/
def effStride (row : SlidingRow) : Int :=
  if row.stride < 1 then row.max_seq_length * row.stride else row.stride

/-- Source line 355: the bucket size. -/
def bucketSize (row : SlidingRow) : Int :=
  row.max_seq_length - (if row.sep_token_extra then 3 else 2)

/-- Source lines 356-363: the overlapping token windows.  Windows are the
slices `tokens_a[i : i + bucket_size]` for `i in range(0, len, stride)`;
`range` raises ValueError on a zero step and yields nothing on a negative
step with a positive stop. -/
def slidingTokenSets (tok : Tokenizer) (row : SlidingRow) :
    Except PyErr (List (List String)) :=
  let ta := tok.tokenize row.ex.text_a
  if (ta.length : Int) > bucketSize row then
    if effStride row = 0 then .error .valueErrorRangeStepZero
    else if effStride row < 0 then .ok []
    else .ok ((pyRange ta.length (effStride row).toNat).map
      (fun (i : Nat) => pySlice ta (i : Int) ((i : Int) + bucketSize row)))
  else .ok [ta]

/-- Source lines 388-429: encode one window (no box support).  The
`InputFeatures` call at line 428 omits the required `feature_id` argument,
so after the padding asserts the construction raises TypeError. -/
def slidingWindowFeature (tok : Tokenizer) (row : SlidingRow)
    (pad_token : Int) (mask_padding_with_zero : Bool) (ta_w : List String) :
    Except PyErr InputFeatures := do
  let tokens := ta_w ++ [row.sep_token]
  let segs : List Int := List.replicate tokens.length 0
  let tokens2 := if row.cls_token_at_end then tokens ++ [row.cls_token]
    else [row.cls_token] ++ tokens
  let segs2 := if row.cls_token_at_end then segs ++ [row.cls_token_segment_id]
    else [row.cls_token_segment_id] ++ segs
  let ids := convertTokensToIds tok tokens2
  let mask : List Int :=
    List.replicate ids.length (if mask_padding_with_zero then 1 else 0)
  let n := (row.max_seq_length - (ids.length : Int)).toNat
  let ids2 := if row.pad_on_left then List.replicate n pad_token ++ ids
    else ids ++ List.replicate n pad_token
  let mask2 := if row.pad_on_left then
      List.replicate n (if mask_padding_with_zero then (0 : Int) else 1) ++ mask
    else mask ++ List.replicate n (if mask_padding_with_zero then (0 : Int) else 1)
  let segs3 := if row.pad_on_left then
      List.replicate n row.pad_token_segment_id ++ segs2
    else segs2 ++ List.replicate n row.pad_token_segment_id
  if (ids2.length : Int) = row.max_seq_length ∧
     (mask2.length : Int) = row.max_seq_length ∧
     (segs3.length : Int) = row.max_seq_length then
    mkInputFeatures ids2 mask2 segs3 row.ex.label .omitted .omitted
  else .error .assertionError

/-- A Python for-loop that appends one fallible result per element,
propagating the first raised exception. -/
def exceptMapList {α β : Type _} (f : α → Except PyErr β) :
    List α → Except PyErr (List β)
  | [] => .ok []
  | x :: xs => do
    let y ← f x
    let ys ← exceptMapList f xs
    .ok (y :: ys)

/-- Source lines 326-431, `convert_example_to_feature_sliding_window`:
build the windows, reject sequence pairs, then encode each window.
`pad_token` and `mask_padding_with_zero` are the keyword parameters of the
Python signature (the driver always leaves them `0` and `True`). -/
def convert_example_to_feature_sliding_window (tok : Tokenizer)
    (row : SlidingRow) (pad_token : Int) (mask_padding_with_zero : Bool) :
    Except PyErr (List InputFeatures) := do
  let sets ← slidingTokenSets tok row
  if pyTruthyStr row.ex.text_b then .error .valueErrorSeqPairSlidingWindow
  else exceptMapList (slidingWindowFeature tok row pad_token mask_padding_with_zero) sets

/-- A Python slice `l[i : i+B]` with a natural start and nonnegative width
is drop-then-take. -/
theorem pySlice_nat {α : Type _} (l : List α) (i : Nat) (B : Int) (hB : 0 ≤ B) :
    pySlice l (i : Int) ((i : Int) + B) = (l.drop i).take B.toNat := by
  unfold pySlice pySliceIdx
  rw [if_neg (by omega), if_neg (by omega)]
  have h1 : (i : Int).toNat = i := by omega
  have h2 : ((i : Int) + B).toNat = i + B.toNat := by omega
  rw [h1, h2]
  rcases le_or_lt i l.length with h | h
  · have hmin : min i l.length = i := by omega
    rw [hmin]
    apply List.take_eq_take.mpr
    simp only [List.length_take, List.length_drop]
    omega
  · have hmin : min i l.length = l.length := by omega
    rw [hmin]
    simp only []
    rw [List.drop_length, List.drop_eq_nil_of_le (le_of_lt h)]
    simp

/-- Length of the fuelled range. -/
theorem pyRange_length (n s : Nat) (hs : 1 ≤ s) :
    (pyRange n s).length = ceilDiv n s := by
  rw [pyRange_eq n s hs]
  simp

/-- Elements of the fuelled range. -/
theorem pyRange_get (n s : Nat) (hs : 1 ≤ s) (k : Nat)
    (hk : k < (pyRange n s).length) : (pyRange n s).get ⟨k, hk⟩ = k * s := by
  rw [List.get_of_eq (pyRange_eq n s hs)]
  simp

/-- C3 (amended): for a positive integer stride S and nonnegative bucket
size B, the sliding-window splitter produces one window holding all L
tokens when L ≤ B, and otherwise windows of length at most B at offsets
0, S, 2S, … until the tokens are exhausted; the number of windows is
`ceil(L / S)` (the claimed `ceil((L-B)/S) + 1` is wrong), and consecutive
windows of full length B overlap in exactly B - S tokens when S ≤ B. -/
theorem sliding_window_amended (tok : Tokenizer) (row : SlidingRow)
    (hS : 1 ≤ row.stride) (hB : 0 ≤ bucketSize row) :
    (((tok.tokenize row.ex.text_a).length : Int) ≤ bucketSize row →
      slidingTokenSets tok row = .ok [tok.tokenize row.ex.text_a]) ∧
    (((tok.tokenize row.ex.text_a).length : Int) > bucketSize row →
      ∃ sets, slidingTokenSets tok row = .ok sets ∧
        sets.length = ceilDiv (tok.tokenize row.ex.text_a).length row.stride.toNat ∧
        (∀ k (hk : k < sets.length),
          sets.get ⟨k, hk⟩ =
            ((tok.tokenize row.ex.text_a).drop (k * row.stride.toNat)).take
              (bucketSize row).toNat ∧
          (sets.get ⟨k, hk⟩).length ≤ (bucketSize row).toNat) ∧
        (∀ k (hk : k + 1 < sets.length),
          row.stride ≤ bucketSize row →
          k * row.stride.toNat + (bucketSize row).toNat ≤
            (tok.tokenize row.ex.text_a).length →
          (sets.get ⟨k, Nat.lt_of_succ_lt hk⟩).drop row.stride.toNat =
            (sets.get ⟨k + 1, hk⟩).take ((bucketSize row).toNat - row.stride.toNat) ∧
          ((sets.get ⟨k, Nat.lt_of_succ_lt hk⟩).drop row.stride.toNat).length =
            (bucketSize row).toNat - row.stride.toNat)) := by
  have heff : effStride row = row.stride := by
    unfold effStride
    rw [if_neg (by omega)]
  have hSN : 1 ≤ row.stride.toNat := by omega
  constructor
  · intro hLB
    unfold slidingTokenSets
    simp only []
    rw [if_neg (by omega)]
  · intro hLB
    have hwin : ∀ k, (pySlice (tok.tokenize row.ex.text_a)
        ((k * row.stride.toNat : Nat) : Int)
        (((k * row.stride.toNat : Nat) : Int) + bucketSize row)) =
        ((tok.tokenize row.ex.text_a).drop (k * row.stride.toNat)).take
          (bucketSize row).toNat := fun k =>
      pySlice_nat (tok.tokenize row.ex.text_a) (k * row.stride.toNat) (bucketSize row) hB
    refine ⟨(pyRange (tok.tokenize row.ex.text_a).length row.stride.toNat).map
      (fun (i : Nat) => pySlice (tok.tokenize row.ex.text_a) (i : Int)
        ((i : Int) + bucketSize row)), ?_, ?_, ?_, ?_⟩
    · unfold slidingTokenSets
      simp only []
      rw [heff, if_pos hLB, if_neg (by omega), if_neg (by omega)]
    · rw [List.length_map, pyRange_length _ _ hSN]
    · intro k hk
      have hk' : k < (pyRange (tok.tokenize row.ex.text_a).length
          row.stride.toNat).length := by simpa using hk
      rw [List.get_map, pyRange_get _ _ hSN k hk']
      refine ⟨hwin k, ?_⟩
      rw [hwin k]
      simp only [List.length_take, List.length_drop]
      omega
    · intro k hk hSB hfull
      have hk1 : k < (pyRange (tok.tokenize row.ex.text_a).length
          row.stride.toNat).length := by
        simp at hk ⊢
        omega
      have hk2 : k + 1 < (pyRange (tok.tokenize row.ex.text_a).length
          row.stride.toNat).length := by simpa using hk
      rw [List.get_map, List.get_map, pyRange_get _ _ hSN k hk1,
        pyRange_get _ _ hSN (k + 1) hk2, hwin k, hwin (k + 1)]
      rw [List.drop_take (bucketSize row).toNat row.stride.toNat]
      have hdd : (((tok.tokenize row.ex.text_a).drop (k * row.stride.toNat)).drop
          row.stride.toNat) =
          (tok.tokenize row.ex.text_a).drop ((k + 1) * row.stride.toNat) := by
        rw [List.drop_drop]
        congr 1
        ring
      rw [hdd]
      rw [List.take_take ((bucketSize row).toNat - row.stride.toNat)
        (bucketSize row).toNat, min_eq_left (by omega)]
      refine ⟨rfl, ?_⟩
      simp only [List.length_take, List.length_drop]
      have hexp : (k + 1) * row.stride.toNat = k * row.stride.toNat +
          row.stride.toNat := by ring
      omega

/-- Reduce a conditional over the trivially false Bool test. -/
theorem ifFalseReduce {α : Type _} (a b : α) :
    (if (false = true) then a else b) = b := if_neg Bool.false_ne_true

/-- A ten-token sliding-window row with `max_seq_length = 7`
(bucket size 5) and stride 3. -/
def cexRowSliding : SlidingRow :=
  ⟨⟨0, "t1 t2 t3 t4 t5 t6 t7 t8 t9 t10", none, some "0", none, none⟩, 7,
    "classification", false, "[CLS]", "[SEP]", 1, false, 0, false, false, 3⟩

/-- C3 counterexample: with L = 10 tokens, bucket size B = 5 and stride
S = 3 the splitter produces 4 windows (offsets 0, 3, 6, 9), while the
claimed formula `ceil(max(L-B,0)/S) + 1` gives 3. -/
theorem sliding_window_count_cex :
    (slidingTokenSets simpleTokenizer cexRowSliding).map List.length = .ok 4 ∧
    4 ≠ ceilDiv (10 - 5) 3 + 1 :=
  ⟨by decide, by decide⟩

/-- Witness for the amended C3 at the concrete ten-token row. -/
theorem sliding_window_amended_witness :
    ((((simpleTokenizer.tokenize cexRowSliding.ex.text_a).length : Int) ≤
        bucketSize cexRowSliding →
      slidingTokenSets simpleTokenizer cexRowSliding =
        .ok [simpleTokenizer.tokenize cexRowSliding.ex.text_a]) ∧
    (((simpleTokenizer.tokenize cexRowSliding.ex.text_a).length : Int) >
        bucketSize cexRowSliding →
      ∃ sets, slidingTokenSets simpleTokenizer cexRowSliding = .ok sets ∧
        sets.length = ceilDiv (simpleTokenizer.tokenize cexRowSliding.ex.text_a).length
          cexRowSliding.stride.toNat ∧
        (∀ k (hk : k < sets.length),
          sets.get ⟨k, hk⟩ =
            ((simpleTokenizer.tokenize cexRowSliding.ex.text_a).drop
              (k * cexRowSliding.stride.toNat)).take (bucketSize cexRowSliding).toNat ∧
          (sets.get ⟨k, hk⟩).length ≤ (bucketSize cexRowSliding).toNat) ∧
        (∀ k (hk : k + 1 < sets.length),
          cexRowSliding.stride ≤ bucketSize cexRowSliding →
          k * cexRowSliding.stride.toNat + (bucketSize cexRowSliding).toNat ≤
            (simpleTokenizer.tokenize cexRowSliding.ex.text_a).length →
          (sets.get ⟨k, Nat.lt_of_succ_lt hk⟩).drop cexRowSliding.stride.toNat =
            (sets.get ⟨k + 1, hk⟩).take
              ((bucketSize cexRowSliding).toNat - cexRowSliding.stride.toNat) ∧
          ((sets.get ⟨k, Nat.lt_of_succ_lt hk⟩).drop cexRowSliding.stride.toNat).length =
            (bucketSize cexRowSliding).toNat - cexRowSliding.stride.toNat))) :=
  sliding_window_amended simpleTokenizer cexRowSliding (by decide) (by decide)

/-- Every per-window encoding whose pre-padding length fits the budget
fails with the TypeError from the omitted `feature_id` argument of the
`InputFeatures` call (the asserts pass, then the construction raises). -/
theorem slidingWindowFeature_typeError (tok : Tokenizer) (row : SlidingRow)
    (pt : Int) (mpz : Bool) (w : List String)
    (h : ((w.length + 2 : Nat) : Int) ≤ row.max_seq_length) :
    slidingWindowFeature tok row pt mpz w = .error .typeErrorMissingFeatureId := by
  unfold slidingWindowFeature
  simp only []
  split_ifs <;>
    first
      | rfl
      | (exfalso
         rename_i hc
         apply hc
         refine ⟨?_, ?_, ?_⟩ <;>
           simp only [List.length_append, List.length_replicate, List.length_cons,
             List.length_nil, convertTokensToIds_length] <;>
           push_cast <;> omega)

/-- Every per-window encoding fails with some exception: the asserts
either fail (AssertionError) or the `InputFeatures` construction raises
the missing-`feature_id` TypeError. -/
theorem slidingWindowFeature_err (tok : Tokenizer) (row : SlidingRow)
    (pt : Int) (mpz : Bool) (w : List String) :
    ∃ e, slidingWindowFeature tok row pt mpz w = .error e := by
  unfold slidingWindowFeature
  simp only []
  split_ifs <;> exact ⟨_, rfl⟩

/-- A failing head aborts the whole loop. -/
theorem exceptMapList_cons_err {α β : Type _} (f : α → Except PyErr β)
    (x : α) (xs : List α) (e : PyErr) (h : f x = .error e) :
    exceptMapList f (x :: xs) = .error e := by
  simp [exceptMapList, h, exceptErrBind]

/-- C7 (amended): for every sliding-window task row whose example has a
truthy `text_b` and whose effective stride (after the fractional
conversion) is nonzero, the encoder fails with the unsupported-combination
ValueError and produces no feature records. -/
theorem sliding_pair_error_amended (tok : Tokenizer) (row : SlidingRow)
    (pt : Int) (mpz : Bool)
    (htb : pyTruthyStr row.ex.text_b = true)
    (hS : effStride row ≠ 0) :
    convert_example_to_feature_sliding_window tok row pt mpz =
      .error .valueErrorSeqPairSlidingWindow := by
  have hok : ∃ s, slidingTokenSets tok row = .ok s := by
    unfold slidingTokenSets
    simp only []
    by_cases h1 : ((tok.tokenize row.ex.text_a).length : Int) > bucketSize row
    · rw [if_pos h1, if_neg hS]
      by_cases h2 : effStride row < 0
      · rw [if_pos h2]
        exact ⟨_, rfl⟩
      · rw [if_neg h2]
        exact ⟨_, rfl⟩
    · rw [if_neg h1]
      exact ⟨_, rfl⟩
  obtain ⟨s, hs⟩ := hok
  unfold convert_example_to_feature_sliding_window
  rw [hs, exceptOkBind, if_pos htb]

/-- A six-token sliding row with a `text_b` and stride 0 (so `range` gets
a zero step). -/
def cexRowSlidingPair : SlidingRow :=
  ⟨⟨0, "t1 t2 t3 t4 t5 t6", some "x", some "0", none, none⟩, 7,
    "classification", false, "[CLS]", "[SEP]", 1, false, 0, false, false, 0⟩

/-- C7 counterexample: with stride 0 and an over-length sequence, the
sliding-window encoder fails with the `range` zero-step ValueError before
the sequence-pair check, not with the unsupported-combination error. -/
theorem sliding_pair_error_cex :
    convert_example_to_feature_sliding_window simpleTokenizer cexRowSlidingPair 0 true =
      .error .valueErrorRangeStepZero ∧
    PyErr.valueErrorRangeStepZero ≠ PyErr.valueErrorSeqPairSlidingWindow :=
  ⟨by decide, by decide⟩

/-- The same sliding row with stride 3. -/
def wRowSlidingPair : SlidingRow :=
  ⟨⟨0, "t1 t2 t3 t4 t5 t6", some "x", some "0", none, none⟩, 7,
    "classification", false, "[CLS]", "[SEP]", 1, false, 0, false, false, 3⟩

/-- Witness for the amended C7 at a concrete row with stride 3. -/
theorem sliding_pair_error_amended_witness :
    convert_example_to_feature_sliding_window simpleTokenizer wRowSlidingPair 0 true =
      .error .valueErrorSeqPairSlidingWindow :=
  sliding_pair_error_amended simpleTokenizer wRowSlidingPair 0 true (by decide) (by decide)

/-- The bucket size plus the two non-pad special tokens is at most
`max_seq_length`. -/
theorem bucketSize_add_two_le (row : SlidingRow) :
    bucketSize row + 2 ≤ row.max_seq_length := by
  unfold bucketSize
  split_ifs <;> omega

/-- C10 (amended): for every 13-field sliding-window task row whose
example has no truthy `text_b`, with a nonnegative stride and a
nonnegative bucket size, `convert_example_to_feature_sliding_window`
never returns successfully; when the stride is at least 1 the failure is
exactly the TypeError raised by the `InputFeatures` call that omits the
required `feature_id` argument. -/
theorem sliding_feature_id_amended (tok : Tokenizer) (row : SlidingRow)
    (pt : Int) (mpz : Bool)
    (htb : pyTruthyStr row.ex.text_b = false)
    (hstr : 0 ≤ row.stride)
    (hbk : 0 ≤ bucketSize row) :
    (∀ fs, convert_example_to_feature_sliding_window tok row pt mpz ≠ .ok fs) ∧
    (1 ≤ row.stride →
      convert_example_to_feature_sliding_window tok row pt mpz =
        .error .typeErrorMissingFeatureId) := by
  have htb' : ¬ pyTruthyStr row.ex.text_b = true := by
    rw [htb]
    exact Bool.false_ne_true
  have hB2 := bucketSize_add_two_le row
  have hfirst : ∀ (w : List String) (rest : List (List String)),
      slidingTokenSets tok row = .ok (w :: rest) →
      ((w.length + 2 : Nat) : Int) ≤ row.max_seq_length →
      convert_example_to_feature_sliding_window tok row pt mpz =
        .error .typeErrorMissingFeatureId := by
    intro w rest hs hw
    unfold convert_example_to_feature_sliding_window
    rw [hs, exceptOkBind, if_neg htb']
    exact exceptMapList_cons_err _ _ _ _
      (slidingWindowFeature_typeError tok row pt mpz w hw)
  have hpos : 1 ≤ row.stride →
      convert_example_to_feature_sliding_window tok row pt mpz =
        .error .typeErrorMissingFeatureId := by
    intro hS1
    have heff : effStride row = row.stride := by
      unfold effStride
      rw [if_neg (by omega)]
    by_cases hL : ((tok.tokenize row.ex.text_a).length : Int) > bucketSize row
    · obtain ⟨m, hm⟩ : ∃ m, (tok.tokenize row.ex.text_a).length = m + 1 :=
        ⟨(tok.tokenize row.ex.text_a).length - 1, by omega⟩
      have hpr : pyRange (m + 1) row.stride.toNat =
          0 :: pyRangeGo row.stride.toNat m (m + 1) (0 + row.stride.toNat) := by
        rw [pyRange, pyRangeGo, if_pos (by omega)]
      have hs : slidingTokenSets tok row = .ok
          ((pySlice (tok.tokenize row.ex.text_a) ((0 : Nat) : Int)
            (((0 : Nat) : Int) + bucketSize row)) ::
            (pyRangeGo row.stride.toNat m (m + 1) (0 + row.stride.toNat)).map
              (fun (i : Nat) => pySlice (tok.tokenize row.ex.text_a) (i : Int)
                ((i : Int) + bucketSize row))) := by
        unfold slidingTokenSets
        simp only []
        rw [heff, if_pos hL, if_neg (by omega), if_neg (by omega), hm, hpr,
          List.map_cons]
      refine hfirst _ _ hs ?_
      rw [pySlice_nat _ _ _ hbk]
      simp only [List.drop_zero, List.length_take]
      have : min (bucketSize row).toNat (tok.tokenize row.ex.text_a).length ≤
          (bucketSize row).toNat := min_le_left _ _
      omega
    · have hs : slidingTokenSets tok row = .ok [tok.tokenize row.ex.text_a] := by
        unfold slidingTokenSets
        simp only []
        rw [if_neg hL]
      refine hfirst _ _ hs ?_
      omega
  refine ⟨?_, hpos⟩
  intro fs hok
  rcases lt_or_le row.stride 1 with hS0 | hS1
  · have hstr0 : row.stride = 0 := by omega
    have heff0 : effStride row = 0 := by
      unfold effStride
      rw [if_pos (by omega), hstr0]
      ring
    by_cases hL : ((tok.tokenize row.ex.text_a).length : Int) > bucketSize row
    · have hs : slidingTokenSets tok row = .error .valueErrorRangeStepZero := by
        unfold slidingTokenSets
        simp only []
        rw [if_pos hL, if_pos heff0]
      unfold convert_example_to_feature_sliding_window at hok
      rw [hs, exceptErrBind] at hok
      cases hok
    · have hs : slidingTokenSets tok row = .ok [tok.tokenize row.ex.text_a] := by
        unfold slidingTokenSets
        simp only []
        rw [if_neg hL]
      obtain ⟨e, he⟩ :=
        slidingWindowFeature_err tok row pt mpz (tok.tokenize row.ex.text_a)
      unfold convert_example_to_feature_sliding_window at hok
      rw [hs, exceptOkBind, if_neg htb',
        exceptMapList_cons_err _ _ _ _ he] at hok
      cases hok
  · rw [hpos hS1] at hok
    cases hok

/-- A sliding row with negative stride over an over-length sequence:
`range(0, 9, -10)` is empty, so the window list is empty. -/
def cexRowSlidingNegStride : SlidingRow :=
  ⟨⟨0, "t1 t2 t3 t4 t5 t6 t7 t8 t9", none, some "0", none, none⟩, 10,
    "classification", false, "[CLS]", "[SEP]", 1, false, 0, false, false, -1⟩

/-- A sliding row with `max_seq_length = 1` (negative bucket size) and an
empty text: `len(tokens) = 0 > -1` holds, yet `range(0, 0, 5)` is empty. -/
def cexRowSlidingTiny : SlidingRow :=
  ⟨⟨0, "", none, some "0", none, none⟩, 1,
    "classification", false, "[CLS]", "[SEP]", 1, false, 0, false, false, 5⟩

/-- C10 counterexample: two 13-field rows without `text_b` on which
`convert_example_to_feature_sliding_window` RETURNS successfully (an empty
feature list): a negative stride makes `range` empty, and a sub-special
`max_seq_length` with an empty tokenization does too. -/
theorem sliding_feature_id_cex :
    convert_example_to_feature_sliding_window simpleTokenizer
      cexRowSlidingNegStride 0 true = .ok [] ∧
    convert_example_to_feature_sliding_window simpleTokenizer
      cexRowSlidingTiny 0 true = .ok [] :=
  ⟨by decide, by decide⟩

/-- A plain six-token sliding row without `text_b`, stride 3. -/
def wRowSlidingPlain : SlidingRow :=
  ⟨⟨0, "t1 t2 t3 t4 t5 t6", none, some "0", none, none⟩, 7,
    "classification", false, "[CLS]", "[SEP]", 1, false, 0, false, false, 3⟩

/-- Witness for the amended C10 at a concrete row. -/
theorem sliding_feature_id_amended_witness :
    (∀ fs, convert_example_to_feature_sliding_window simpleTokenizer
      wRowSlidingPlain 0 true ≠ .ok fs) ∧
    (1 ≤ wRowSlidingPlain.stride →
      convert_example_to_feature_sliding_window simpleTokenizer
        wRowSlidingPlain 0 true = .error .typeErrorMissingFeatureId) :=
  sliding_feature_id_amended simpleTokenizer wRowSlidingPlain 0 true
    (by decide) (by decide) (by decide)

/-- The `args` object consumed by the chunk-size policy of the driver. -/
structure DriverArgs where
  multiprocessing_chunksize : Int
  process_count : Int
  deriving Repr

/-- The keyword configuration of `convert_examples_to_features`
(source lines 215-241). -/
structure DriverConfig where
  max_seq_length : Int
  output_mode : String
  cls_token_at_end : Bool
  sep_token_extra : Bool
  pad_on_left : Bool
  cls_token : String
  sep_token : String
  pad_token : Int
  cls_token_segment_id : Int
  pad_token_segment_id : Int
  multi_label : Bool
  use_multiprocessing : Bool
  sliding_window : Bool
  flatten : Bool
  stride : Int
  add_prefix_space : Bool
  pad_to_max_length : Bool
  deriving Repr

/-- Source lines 249-269: pack one example with the full configuration
into the 16-component task tuple. -/
def mkExampleRow (cfg : DriverConfig) (ex : InputExample) : ExampleRow :=
  ⟨ex, cfg.max_seq_length, cfg.output_mode, cfg.cls_token_at_end, cfg.cls_token,
   cfg.sep_token, cfg.cls_token_segment_id, cfg.pad_on_left, cfg.pad_token_segment_id,
   cfg.sep_token_extra, cfg.multi_label, cfg.stride, cfg.pad_token,
   cfg.add_prefix_space, cfg.pad_to_max_length⟩

/-- Unpacking the driver's 16-component task tuple (source lines 249-269)
into the 13 names of `convert_example_to_feature_sliding_window` (source
lines 336-350): Python raises `ValueError: too many values to unpack`
before any component is used, because a 16-tuple cannot be unpacked into
13 targets. -/
def unpackRow16As13 (r : ExampleRow) : Except PyErr SlidingRow :=
  .error .valueErrorTooManyValues

/-- The value returned by the batch driver: a flat feature list, or the
nested per-example window lists of unflattened sliding-window mode. -/
inductive FeaturesOutput where
  | flat (fs : List InputFeatures)
  | nested (fss : List (List InputFeatures))
  deriving DecidableEq, Repr

/-- Source lines 272-275: the chunk-size policy,
`max(len(examples) // (args.process_count * 2), 500)` when the configured
chunk size is -1 (ZeroDivisionError when `process_count` is zero); the
value only tunes pool scheduling. -/
def chunksizeCalc (args : DriverArgs) (numRows : Nat) : Except PyErr Int :=
  if args.multiprocessing_chunksize = -1 then
    if args.process_count * 2 = 0 then .error .zeroDivisionError
    else .ok (max (Int.fdiv numRows (args.process_count * 2)) 500)
  else .ok args.multiprocessing_chunksize

/-- Source lines 215-306, `convert_examples_to_features`: pack the rows,
then either fan out over the order-preserving pool (`p.imap`, modelled as
an in-order fallible map per the pool's contract) or loop sequentially;
sliding-window results are optionally flattened.  The worker functions
receive only the row, so their keyword parameters keep the Python default
values (`pad_token = 0`, `mask_padding_with_zero = True`). -/
def convert_examples_to_features (tok : Tokenizer) (cfg : DriverConfig)
    (args : DriverArgs) (examples : List InputExample) :
    Except PyErr FeaturesOutput :=
  let rows := examples.map (mkExampleRow cfg)
  if cfg.use_multiprocessing then do
    let _chunksize ← chunksizeCalc args rows.length
    if cfg.sliding_window then do
      let fss ← exceptMapList (fun r => do
        let r13 ← unpackRow16As13 r
        convert_example_to_feature_sliding_window tok r13 0 true) rows
      if cfg.flatten then .ok (.flat fss.join) else .ok (.nested fss)
    else do
      let fs ← exceptMapList (fun r => convert_example_to_feature tok r true) rows
      .ok (.flat fs)
  else
    if cfg.sliding_window then do
      let fss ← exceptMapList (fun r => do
        let r13 ← unpackRow16As13 r
        convert_example_to_feature_sliding_window tok r13 0 true) rows
      if cfg.flatten then .ok (.flat fss.join) else .ok (.nested fss)
    else do
      let fs ← exceptMapList (fun r => convert_example_to_feature tok r true) rows
      .ok (.flat fs)

/-- A successful fallible loop returns one result per input, in order. -/
theorem exceptMapList_ok {α β : Type _} (f : α → Except PyErr β) :
    ∀ (l : List α) (ys : List β), exceptMapList f l = .ok ys →
      ys.length = l.length ∧
      ∀ i (hi : i < l.length) (hi' : i < ys.length),
        f (l.get ⟨i, hi⟩) = .ok (ys.get ⟨i, hi'⟩)
  | [], ys, h => by
    unfold exceptMapList at h
    injection h with h
    subst h
    exact ⟨rfl, fun i hi _ => absurd hi (by simp)⟩
  | x :: xs, ys, h => by
    unfold exceptMapList at h
    cases hfx : f x with
    | error e =>
      rw [hfx, exceptErrBind] at h
      cases h
    | ok y =>
      rw [hfx, exceptOkBind] at h
      cases hrec : exceptMapList f xs with
      | error e =>
        rw [hrec, exceptErrBind] at h
        cases h
      | ok ys' =>
        rw [hrec, exceptOkBind] at h
        injection h with h
        subst h
        obtain ⟨hlen, hget⟩ := exceptMapList_ok f xs ys' hrec
        refine ⟨by simp [hlen], ?_⟩
        intro i hi hi'
        cases i with
        | zero => simpa using hfx
        | succ j =>
          have hj : j < xs.length := by simpa using hi
          have hj' : j < ys'.length := by simpa using hi'
          simpa using hget j hj hj'

/-- C5: with a well-defined chunk-size computation, the parallel and the
sequential execution modes of `convert_examples_to_features` return
identical results on every input list; moreover in standard (non-sliding)
mode a successful run returns exactly one feature record per input
example, in input order. -/
theorem driver_modes_agree (tok : Tokenizer) (cfg : DriverConfig)
    (args : DriverArgs) (examples : List InputExample)
    (hdiv : args.multiprocessing_chunksize = -1 → args.process_count * 2 ≠ 0) :
    convert_examples_to_features tok { cfg with use_multiprocessing := true }
      args examples =
    convert_examples_to_features tok { cfg with use_multiprocessing := false }
      args examples ∧
    (cfg.sliding_window = false → ∀ (b : Bool) (fs : List InputFeatures),
      convert_examples_to_features tok { cfg with use_multiprocessing := b }
        args examples = .ok (.flat fs) →
      fs.length = examples.length ∧
      ∀ i (hi : i < examples.length) (hi' : i < fs.length),
        convert_example_to_feature tok (mkExampleRow cfg (examples.get ⟨i, hi⟩))
          true = .ok (fs.get ⟨i, hi'⟩)) := by
  have hchunk : ∃ c, chunksizeCalc args
      (examples.map (mkExampleRow { cfg with use_multiprocessing := true })).length =
      .ok c := by
    unfold chunksizeCalc
    by_cases hm : args.multiprocessing_chunksize = -1
    · rw [if_pos hm, if_neg (hdiv hm)]
      exact ⟨_, rfl⟩
    · rw [if_neg hm]
      exact ⟨_, rfl⟩
  obtain ⟨c, hc⟩ := hchunk
  constructor
  · unfold convert_examples_to_features
    rw [if_pos (rfl :
      ({ cfg with use_multiprocessing := true } : DriverConfig).use_multiprocessing = true)]
    rw [if_neg (show ¬({ cfg with use_multiprocessing := false } :
      DriverConfig).use_multiprocessing = true by simp)]
    rw [hc, exceptOkBind]
    rfl
  · intro hsl b fs hok
    have hrows : (examples.map (mkExampleRow { cfg with use_multiprocessing := b })) =
        examples.map (mkExampleRow cfg) := rfl
    have hmap : exceptMapList (fun r => convert_example_to_feature tok r true)
        (examples.map (mkExampleRow cfg)) = .ok fs := by
      unfold convert_examples_to_features at hok
      cases b with
      | true =>
        rw [if_pos rfl, hc, exceptOkBind, if_neg (by simp [hsl])] at hok
        cases hmm : exceptMapList (fun r => convert_example_to_feature tok r true)
            (examples.map (mkExampleRow { cfg with use_multiprocessing := true })) with
        | error e =>
          rw [hmm, exceptErrBind] at hok
          cases hok
        | ok fs' =>
          rw [hmm, exceptOkBind] at hok
          injection hok with hok
          cases hok
          exact hmm
      | false =>
        rw [if_neg (by simp), if_neg (by simp [hsl])] at hok
        cases hmm : exceptMapList (fun r => convert_example_to_feature tok r true)
            (examples.map (mkExampleRow { cfg with use_multiprocessing := false })) with
        | error e =>
          rw [hmm, exceptErrBind] at hok
          cases hok
        | ok fs' =>
          rw [hmm, exceptOkBind] at hok
          injection hok with hok
          cases hok
          exact hmm
    obtain ⟨hlen, hget⟩ := exceptMapList_ok _ _ _ hmap
    refine ⟨by simpa using hlen, ?_⟩
    intro i hi hi'
    have hmi : i < (examples.map (mkExampleRow cfg)).length := by simpa using hi
    have := hget i hmi hi'
    rw [List.get_map] at this
    exact this

/-- A standard (non-sliding) driver configuration. -/
def wDriverCfg : DriverConfig :=
  ⟨7, "classification", false, false, false, "[CLS]", "[SEP]", 0, 1, 0, false,
    false, false, false, 3, false, true⟩

/-- Two plain examples. -/
def wExamples : List InputExample :=
  [⟨0, "t1 t2", none, some "0", none, none⟩,
   ⟨1, "u1 u2 u3", none, some "1", none, none⟩]

/-- Witness for C5 at a concrete two-example batch with the default
chunk-size policy and four worker processes. -/
theorem driver_modes_agree_witness :
    convert_examples_to_features simpleTokenizer
      { wDriverCfg with use_multiprocessing := true } ⟨-1, 4⟩ wExamples =
    convert_examples_to_features simpleTokenizer
      { wDriverCfg with use_multiprocessing := false } ⟨-1, 4⟩ wExamples ∧
    (wDriverCfg.sliding_window = false → ∀ (b : Bool) (fs : List InputFeatures),
      convert_examples_to_features simpleTokenizer
        { wDriverCfg with use_multiprocessing := b } ⟨-1, 4⟩ wExamples =
        .ok (.flat fs) →
      fs.length = wExamples.length ∧
      ∀ i (hi : i < wExamples.length) (hi' : i < fs.length),
        convert_example_to_feature simpleTokenizer
          (mkExampleRow wDriverCfg (wExamples.get ⟨i, hi⟩)) true =
          .ok (fs.get ⟨i, hi'⟩)) :=
  driver_modes_agree simpleTokenizer wDriverCfg ⟨-1, 4⟩ wExamples (by decide)

/-- A sliding-window driver configuration (sequential mode). -/
def cexDriverCfgSliding : DriverConfig :=
  ⟨7, "classification", false, false, false, "[CLS]", "[SEP]", 0, 1, 0, false,
    false, true, false, 3, false, true⟩

/-- C4: the sliding-window mode of the batch driver never produces its
advertised output: the driver packs 16-component task tuples while
`convert_example_to_feature_sliding_window` unpacks 13 names, so the very
first example raises `ValueError: too many values to unpack`, in the
sequential mode and in the parallel mode alike (and with `flatten` set). -/
theorem driver_sliding_window_crash :
    convert_examples_to_features simpleTokenizer cexDriverCfgSliding ⟨-1, 4⟩
      [⟨0, "t1 t2", none, some "0", none, none⟩] =
      .error .valueErrorTooManyValues ∧
    convert_examples_to_features simpleTokenizer
      { cexDriverCfgSliding with use_multiprocessing := true } ⟨-1, 4⟩
      [⟨0, "t1 t2", none, some "0", none, none⟩] =
      .error .valueErrorTooManyValues ∧
    convert_examples_to_features simpleTokenizer
      { cexDriverCfgSliding with flatten := true } ⟨-1, 4⟩
      [⟨0, "t1 t2", none, some "0", none, none⟩] =
      .error .valueErrorTooManyValues :=
  ⟨by decide, by decide, by decide⟩

/-! ### Lazy dataset, source lines 434-505 (`LazyClassificationDataset`) -/

/-- The fields of `args` read by `LazyClassificationDataset` (source lines
435-451, 463-502). -/
structure LazyArgs where
  lazy_loading_start_line : Nat
  lazy_delimiter : String
  lazy_text_a_column : Option Nat
  lazy_text_b_column : Option Nat
  lazy_text_column : Nat
  lazy_labels_column : Nat
  labels_map : List (String × Int)
  regression : Bool
  max_seq_length : Int
  deriving DecidableEq, Repr

/-- The state of a constructed `LazyClassificationDataset`.  The data file is
embedded as its list of lines (without their trailing newlines). -/
structure LazyDataset where
  lines : List String
  start_row : Nat
  num_entries : Int
  delimiter : String
  text_column : Option Nat
  text_a_column : Option Nat
  text_b_column : Option Nat
  labels_column : Nat
  args : LazyArgs
  deriving DecidableEq, Repr

/-- Source lines 452-458, `_get_n_lines`: iterate over the file counting
lines from 1, then return `line_idx - start_row`.  On an empty file the loop
body never runs and `line_idx` is unbound, a `NameError`
(`UnboundLocalError`). -/
def get_n_lines (lines : List String) (start_row : Nat) : Except PyErr Int :=
  if lines.isEmpty then .error .nameError
  else .ok ((lines.length : Int) - (start_row : Nat))

/-- Source lines 435-451, `__init__`: count the lines, store the delimiter,
and store the pair columns (clearing the single text column) exactly when
both `lazy_text_a_column` and `lazy_text_b_column` are not `None`, else the
single text column (clearing the pair columns). -/
def lazyInit (lines : List String) (args : LazyArgs) : Except PyErr LazyDataset := do
  let n ← get_n_lines lines args.lazy_loading_start_line
  if args.lazy_text_a_column.isSome && args.lazy_text_b_column.isSome then
    .ok ⟨lines, args.lazy_loading_start_line, n, args.lazy_delimiter,
         none, args.lazy_text_a_column, args.lazy_text_b_column,
         args.lazy_labels_column, args⟩
  else
    .ok ⟨lines, args.lazy_loading_start_line, n, args.lazy_delimiter,
         some args.lazy_text_column, none, none,
         args.lazy_labels_column, args⟩

/-- Python `str.rstrip("\n")`: drop trailing newline characters. -/
def rstripNewline (s : String) : String :=
  String.mk ((s.data.reverse.dropWhile (fun c => c = '\n')).reverse)

/-- `linecache.getline(file, n)`: the 1-based `n`-th line of the file with
its trailing newline, or `""` when `n` is out of range. -/
def pyGetline (lines : List String) (n : Int) : String :=
  if h : 1 ≤ n ∧ n ≤ (lines.length : Int) then
    lines.get ⟨(n - 1).toNat, by omega⟩ ++ "\n"
  else ""

/-- Source line 461: `linecache.getline(self.data_file, idx + 1 +
self.start_row).rstrip("\n").split(self.delimiter)`. -/
def lazyLineFields (ds : LazyDataset) (idx : Nat) : List String :=
  pySplit (rstripNewline (pyGetline ds.lines ((idx : Int) + 1 + (ds.start_row : Nat))))
    ds.delimiter

/-- A value produced by Python's `float(...)`: floats are kept symbolic as
their source (an integer from the labels map, or the raw label string). -/
inductive FloatSrc where
  | ofInt (n : Int)
  | ofStr (s : String)
  deriving DecidableEq, Repr

/-- The label tensor built at source lines 471-474 / 488-491:
`torch.tensor(float(label), dtype=torch.float)` or
`torch.tensor(int(label), dtype=torch.long)`. -/
inductive LabelTensor where
  | float (v : FloatSrc)
  | long (n : Int)
  deriving DecidableEq, Repr

/-- Accumulate the value of a run of decimal digits; `none` on any
non-digit character. -/
def digitsValGo (acc : Nat) : List Char → Option Nat
  | [] => some acc
  | c :: cs => if c.isDigit then digitsValGo (acc * 10 + (c.toNat - 48)) cs else none

/-- Python `int(s)` on a label string: an optional sign followed by at least
one decimal digit, else ValueError.  (Surrounding whitespace and underscore
separators, which the labels of this loader never carry, are not modelled.) -/
def pyIntParse (s : String) : Except PyErr Int :=
  match s.data with
  | [] => .error .valueErrorIntParse
  | '-' :: rest =>
    match rest, digitsValGo 0 rest with
    | _ :: _, some n => .ok (-(n : Int))
    | _, _ => .error .valueErrorIntParse
  | '+' :: rest =>
    match rest, digitsValGo 0 rest with
    | _ :: _, some n => .ok ((n : Int))
    | _, _ => .error .valueErrorIntParse
  | l =>
    match digitsValGo 0 l with
    | some n => .ok ((n : Int))
    | none => .error .valueErrorIntParse

/-- Dictionary lookup `labels_map[label]` (source line 470). -/
def lookupLabel (m : List (String × Int)) (s : String) : Option Int :=
  (m.find? (fun p => p.1 = s)).map Prod.snd

/-- Python truthiness of the `labels_map` dict at source line 469. -/
def pyTruthyMap (m : List (String × Int)) : Bool := !m.isEmpty

/-- Source lines 469-470: replace the raw label string by its mapped id when
`args.labels_map` is truthy (`KeyError` on a missing key), else keep the
string. -/
def mapLabel (m : List (String × Int)) (raw : String) : Except PyErr (Sum String Int) :=
  if pyTruthyMap m then
    match lookupLabel m raw with
    | some n => .ok (Sum.inr n)
    | none => .error .keyError
  else .ok (Sum.inl raw)

/-- Source lines 471-474 (and 488-491): `float(label)`/`int(label)` applied
to the (possibly mapped) label, wrapped in a tensor of dtype float for
regression and long otherwise. -/
def convertLabel (regression : Bool) (v : Sum String Int) : Except PyErr LabelTensor :=
  if regression then
    match v with
    | .inl s => .ok (.float (.ofStr s))
    | .inr n => .ok (.float (.ofInt n))
  else
    match v with
    | .inl s => do
      let n ← pyIntParse s
      .ok (.long n)
    | .inr n => .ok (.long n)

/-- The arguments of the black-box `tokenizer.encode_plus` call at source
lines 476-482 / 493-499 (`pad_to_max_length` is passed
`self.args.max_seq_length`, source lines 479 and 496). -/
structure EncodePlusCall where
  text : String
  text_pair : Option String
  max_length : Int
  pad_to_max_length : Int
  deriving DecidableEq, Repr

/-- `line[c]` for a column index that may be `None` (Python raises
`TypeError: list indices must be integers`, not `NoneType`). -/
def optCol : Option Nat → Except PyErr Nat
  | some c => .ok c
  | none => .error .typeErrorNoneIndex

/-- Source lines 460-502, `__getitem__`: split line `idx + 1 + start_row`,
then — when both stored pair columns are falsy — read the single text column
and the label column, map the label through `labels_map` when that is
truthy, convert it, and record the `encode_plus` call; otherwise read the
two pair columns and the label column and convert the label directly,
WITHOUT consulting `labels_map` (the map is only applied on the
single-column path, source lines 469-470 have no counterpart at 485-491). -/
def lazyGetItem (ds : LazyDataset) (idx : Nat) :
    Except PyErr (EncodePlusCall × LabelTensor) :=
  if pyFalsyOptNat ds.text_a_column && pyFalsyOptNat ds.text_b_column then do
    let tc ← optCol ds.text_column
    let text ← pyListGet (lazyLineFields ds idx) tc
    let raw ← pyListGet (lazyLineFields ds idx) ds.labels_column
    let v ← mapLabel ds.args.labels_map raw
    let lab ← convertLabel ds.args.regression v
    .ok (⟨text, none, ds.args.max_seq_length, ds.args.max_seq_length⟩, lab)
  else do
    let ca ← optCol ds.text_a_column
    let cb ← optCol ds.text_b_column
    let ta ← pyListGet (lazyLineFields ds idx) ca
    let tb ← pyListGet (lazyLineFields ds idx) cb
    let raw ← pyListGet (lazyLineFields ds idx) ds.labels_column
    let lab ← convertLabel ds.args.regression (Sum.inl raw)
    .ok (⟨ta, some tb, ds.args.max_seq_length, ds.args.max_seq_length⟩, lab)

/-- `rstrip("\n")` of a line with its newline restores the line, provided
the line itself contains no newline character. -/
theorem rstripNewline_append (l : String) (hnl : '\n' ∉ l.data) :
    rstripNewline (l ++ "\n") = l := by
  unfold rstripNewline
  rw [String.data_append]
  show String.mk (((l.data ++ ['\n']).reverse.dropWhile (fun c => c = '\n')).reverse) = l
  rw [List.reverse_append]
  show String.mk ((List.dropWhile (fun c => c = '\n') ('\n' :: l.data.reverse)).reverse) = l
  rw [List.dropWhile_cons]
  rw [if_pos (by decide)]
  have hself : List.dropWhile (fun c => c = '\n') l.data.reverse = l.data.reverse := by
    cases hrev : l.data.reverse with
    | nil => rfl
    | cons c t =>
      rw [List.dropWhile_cons]
      rw [if_neg ?_]
      have hc : c ∈ l.data := by
        rw [← List.mem_reverse, hrev]; exact List.mem_cons_self c t
      simp only [decide_eq_true_eq]
      intro hcn
      exact hnl (hcn ▸ hc)
  rw [hself, List.reverse_reverse]

/-- `linecache.getline` at an in-range 1-based index returns that line with
its newline. -/
theorem pyGetline_in (lines : List String) (k : Nat) (hk : k < lines.length) :
    pyGetline lines ((k : Int) + 1) = lines.get ⟨k, hk⟩ ++ "\n" := by
  unfold pyGetline
  rw [dif_pos (show 1 ≤ (k : Int) + 1 ∧ (k : Int) + 1 ≤ (lines.length : Int) by
    constructor <;> omega)]
  have h1 : ((k : Int) + 1 - 1).toNat = k := by omega
  simp only [h1]

/-- Indexed line access of the lazy dataset: entry `i` is line
`start_row + i` (0-based) of the file, split on the delimiter. -/
theorem lazyLineFields_eq (ds : LazyDataset) (i : Nat)
    (hnl : ∀ l ∈ ds.lines, '\n' ∉ l.data)
    (hi : ds.start_row + i < ds.lines.length) :
    lazyLineFields ds i = pySplit (ds.lines.get ⟨ds.start_row + i, hi⟩) ds.delimiter := by
  unfold lazyLineFields
  have hn : (i : Int) + 1 + (ds.start_row : Nat) = ((ds.start_row + i : Nat) : Int) + 1 := by
    push_cast; ring
  rw [hn, pyGetline_in ds.lines (ds.start_row + i) hi,
    rstripNewline_append _ (hnl _ (List.get_mem _ _ _))]

/-- C8: for a data file with `N` lines (none containing an interior newline)
and configured start offset `k`, construction succeeds, the dataset's length
is `N - k`, and every indexed access `i` with `k + i < N` reads exactly line
`i + 1 + k` of the file (1-based), strips the trailing newline, and splits
it on the configured delimiter — so index `0` yields the first data row
after the offset and index `N - k - 1` the last line of the file. -/
theorem lazy_dataset_indexing (lines : List String) (args : LazyArgs)
    (hne : lines ≠ [])
    (hnl : ∀ l ∈ lines, '\n' ∉ l.data) :
    ∃ ds : LazyDataset, lazyInit lines args = .ok ds ∧
      ds.num_entries = (lines.length : Int) - (args.lazy_loading_start_line : Nat) ∧
      ∀ i (hi : args.lazy_loading_start_line + i < lines.length),
        lazyLineFields ds i =
          pySplit (lines.get ⟨args.lazy_loading_start_line + i, hi⟩)
            args.lazy_delimiter := by
  have hget : get_n_lines lines args.lazy_loading_start_line =
      .ok ((lines.length : Int) - (args.lazy_loading_start_line : Nat)) := by
    cases lines with
    | nil => exact absurd rfl hne
    | cons a as => rfl
  unfold lazyInit
  rw [hget, exceptOkBind]
  by_cases hc : (args.lazy_text_a_column.isSome && args.lazy_text_b_column.isSome) = true
  · rw [if_pos hc]
    exact ⟨_, rfl, rfl, fun i hi => lazyLineFields_eq _ i hnl hi⟩
  · rw [if_neg hc]
    exact ⟨_, rfl, rfl, fun i hi => lazyLineFields_eq _ i hnl hi⟩

/-- A concrete lazy-loading configuration: tab delimiter, start offset 1
(skip a header line), single text column 0, labels column 1. -/
def wLazyArgs : LazyArgs :=
  ⟨1, "\t", none, none, 0, 1, [], false, 128⟩

/-- Witness for C8 at a three-line file with a header row skipped by start
offset 1. -/
theorem lazy_dataset_indexing_witness :
    ∃ ds : LazyDataset, lazyInit ["h\tlab", "r1\t0", "r2\t1"] wLazyArgs = .ok ds ∧
      ds.num_entries = (((["h\tlab", "r1\t0", "r2\t1"] : List String).length : Int) -
        (wLazyArgs.lazy_loading_start_line : Nat)) ∧
      ∀ i (hi : wLazyArgs.lazy_loading_start_line + i <
          (["h\tlab", "r1\t0", "r2\t1"] : List String).length),
        lazyLineFields ds i =
          pySplit ((["h\tlab", "r1\t0", "r2\t1"] : List String).get
            ⟨wLazyArgs.lazy_loading_start_line + i, hi⟩) wLazyArgs.lazy_delimiter :=
  lazy_dataset_indexing ["h\tlab", "r1\t0", "r2\t1"] wLazyArgs (by decide) (by decide)

/-- C9 (amended): on the single-text-column path a configured (truthy)
labels map IS applied to the raw label before the numeric conversion, but
on the text-a/text-b pair-column path the raw label field is converted
directly and the labels map is never consulted. -/
theorem lazy_label_map_amended (ds : LazyDataset) (idx : Nat) :
    ((pyFalsyOptNat ds.text_a_column && pyFalsyOptNat ds.text_b_column) = true →
      pyTruthyMap ds.args.labels_map = true →
      ∀ enc lab, lazyGetItem ds idx = .ok (enc, lab) →
        ∃ raw n, pyListGet (lazyLineFields ds idx) ds.labels_column = .ok raw ∧
          lookupLabel ds.args.labels_map raw = some n ∧
          lab = (if ds.args.regression then LabelTensor.float (.ofInt n) else .long n)) ∧
    ((pyFalsyOptNat ds.text_a_column && pyFalsyOptNat ds.text_b_column) = false →
      ∀ enc lab, lazyGetItem ds idx = .ok (enc, lab) →
        ∃ raw, pyListGet (lazyLineFields ds idx) ds.labels_column = .ok raw ∧
          convertLabel ds.args.regression (Sum.inl raw) = .ok lab) := by
  constructor
  · intro hsingle htr enc lab h
    unfold lazyGetItem at h
    rw [if_pos hsingle] at h
    cases htc : optCol ds.text_column with
    | error e => rw [htc, exceptErrBind] at h; exact Except.noConfusion h
    | ok tc =>
    rw [htc, exceptOkBind] at h
    cases htext : pyListGet (lazyLineFields ds idx) tc with
    | error e => rw [htext, exceptErrBind] at h; exact Except.noConfusion h
    | ok text =>
    rw [htext, exceptOkBind] at h
    cases hraw : pyListGet (lazyLineFields ds idx) ds.labels_column with
    | error e => rw [hraw, exceptErrBind] at h; exact Except.noConfusion h
    | ok raw =>
    rw [hraw, exceptOkBind] at h
    cases hm : mapLabel ds.args.labels_map raw with
    | error e => rw [hm, exceptErrBind] at h; exact Except.noConfusion h
    | ok v =>
    rw [hm, exceptOkBind] at h
    have hv : ∃ n, lookupLabel ds.args.labels_map raw = some n ∧ v = Sum.inr n := by
      unfold mapLabel at hm
      rw [if_pos htr] at hm
      cases hl : lookupLabel ds.args.labels_map raw with
      | none => rw [hl] at hm; exact Except.noConfusion hm
      | some n =>
        rw [hl] at hm
        injection hm with hm'
        exact ⟨n, rfl, hm'.symm⟩
    obtain ⟨n, hl, rfl⟩ := hv
    have hcv : convertLabel ds.args.regression (Sum.inr n) =
        .ok (if ds.args.regression then LabelTensor.float (.ofInt n) else .long n) := by
      unfold convertLabel
      cases ds.args.regression <;> rfl
    rw [hcv, exceptOkBind] at h
    injection h with h2
    injection h2 with he hl2
    exact ⟨raw, n, rfl, hl, hl2.symm⟩
  · intro hpair enc lab h
    unfold lazyGetItem at h
    rw [if_neg (by rw [hpair]; exact Bool.false_ne_true)] at h
    cases hca : optCol ds.text_a_column with
    | error e => rw [hca, exceptErrBind] at h; exact Except.noConfusion h
    | ok ca =>
    rw [hca, exceptOkBind] at h
    cases hcb : optCol ds.text_b_column with
    | error e => rw [hcb, exceptErrBind] at h; exact Except.noConfusion h
    | ok cb =>
    rw [hcb, exceptOkBind] at h
    cases hta : pyListGet (lazyLineFields ds idx) ca with
    | error e => rw [hta, exceptErrBind] at h; exact Except.noConfusion h
    | ok ta =>
    rw [hta, exceptOkBind] at h
    cases htb : pyListGet (lazyLineFields ds idx) cb with
    | error e => rw [htb, exceptErrBind] at h; exact Except.noConfusion h
    | ok tb =>
    rw [htb, exceptOkBind] at h
    cases hraw : pyListGet (lazyLineFields ds idx) ds.labels_column with
    | error e => rw [hraw, exceptErrBind] at h; exact Except.noConfusion h
    | ok raw =>
    rw [hraw, exceptOkBind] at h
    cases hcv : convertLabel ds.args.regression (Sum.inl raw) with
    | error e => rw [hcv, exceptErrBind] at h; exact Except.noConfusion h
    | ok l =>
    rw [hcv, exceptOkBind] at h
    injection h with h2
    injection h2 with he hl2
    exact ⟨raw, rfl, hl2 ▸ hcv⟩

/-- A lazy-loading configuration with pair columns 0 and 1, labels column 2,
and a labels map sending the raw label "0" to id 5. -/
def cexLazyArgs : LazyArgs :=
  ⟨0, "\t", some 0, some 1, 0, 2, [("0", 5)], false, 128⟩

/-- C9 counterexample: with pair columns configured and a labels map
mapping "0" to 5, indexed access of the one-line file `a<TAB>b<TAB>0`
returns label id 0 — the raw label parsed directly — not the mapped id 5:
the pair-column path never consults the labels map. -/
theorem lazy_label_map_cex :
    ((lazyInit ["a\tb\t0"] cexLazyArgs) >>= fun ds => lazyGetItem ds 0) =
      .ok (⟨"a", some "b", 128, 128⟩, .long 0) ∧
    LabelTensor.long 0 ≠ .long 5 := by
  constructor
  · decide
  · decide

/-- A constructed lazy dataset in single-text-column mode with a labels map
sending "0" to 7, over the one-line file `x<TAB>0`. -/
def wLazyDs : LazyDataset :=
  ⟨["x\t0"], 0, 1, "\t", some 0, none, none, 1,
   ⟨0, "\t", none, none, 0, 1, [("0", 7)], false, 128⟩⟩

/-- Witness for C9's amended theorem: on the single-column path of
`wLazyDs` the label "0" is looked up in the map and becomes id 7. -/
theorem lazy_label_map_amended_witness :
    ∃ raw n, pyListGet (lazyLineFields wLazyDs 0) wLazyDs.labels_column = .ok raw ∧
      lookupLabel wLazyDs.args.labels_map raw = some n ∧
      LabelTensor.long 7 =
        (if wLazyDs.args.regression then LabelTensor.float (.ofInt n) else .long n) :=
  (lazy_label_map_amended wLazyDs 0).1 (by decide) (by decide)
    ⟨"x", none, 128, 128⟩ (.long 7) (by decide)
